import Mathlib

/-
Verification of the EDClient (ECHO Data Client) acquisition pipeline.

Each section shallowly embeds one slice of `EDClient.py` as executable Lean
definitions and proves the corresponding specification claims about it.
External effects (the MySQL store, the filesystem, the curl transfers, the
XML files) are modelled by explicit oracles and state values, while the
control flow and arithmetic of the Python source are translated line by line.
-/

namespace EDClient

/-! ### Recurring temporal normalization (`ECHOrequest.loadDataSetQueries`, lines 350-372)

`datetime.date(y, m, d)` is modelled by `validDate`/`dayOfYear`: the Python
constructor raises `ValueError` on an invalid calendar date, which the
embedding renders as `none`.  `sdoy = sDate.toordinal() - date(yr,1,1).toordinal() + 1`
is the ordinal position of the date within its year, i.e. `dayOfYear`. -/

/-- Gregorian leap-year rule used by Python `datetime.date`. -/
def isLeap (y : Nat) : Bool :=
  (y % 4 == 0 && y % 100 != 0) || y % 400 == 0

/-- Number of days of month `m` in year `y` (Python calendar semantics). -/
def daysInMonth (y m : Nat) : Nat :=
  if m = 2 then (if isLeap y then 29 else 28)
  else if m = 4 || m = 6 || m = 9 || m = 11 then 30
  else 31

/-- Arguments on which `datetime.date(y, m, d)` succeeds. -/
def validDate (y m d : Nat) : Prop :=
  1 ≤ y ∧ y ≤ 9999 ∧ 1 ≤ m ∧ m ≤ 12 ∧ 1 ≤ d ∧ d ≤ daysInMonth y m

instance (y m d : Nat) : Decidable (validDate y m d) := by
  unfold validDate; exact inferInstance

/-- Day-of-year of `(y, m, d)`: `date(y,m,d).toordinal() - date(y,1,1).toordinal() + 1`. -/
def dayOfYear (y m d : Nat) : Nat :=
  ((List.range (m - 1)).map (fun i => daysInMonth y (i + 1))).sum + d

/-- Result of `datetime.date(y,m,d)` followed by the day-of-year computation;
`none` models the uncaught `ValueError` on an invalid date. -/
def dateToDoy (y m d : Nat) : Option Nat :=
  if validDate y m d then some (dayOfYear y m d) else none

/-- `range(int(yr_start), int(yr_end) + 1)` from the normalization loop. -/
def yearsRange (y0 y1 : Nat) : List Nat :=
  (List.range (y1 + 1 - y0)).map (fun i => y0 + i)

/-- List traversal that stops at the first failing element, like the Python
`for` loop whose body may raise. -/
def mapOpt (f : α → Option β) : List α → Option (List β)
  | [] => some []
  | a :: l =>
    match f a with
    | none => none
    | some b =>
      match mapOpt f l with
      | none => none
      | some bs => some (b :: bs)

/-- Python `min` over a list; `none` models the `ValueError` on an empty list. -/
def listMin : List Nat → Option Nat
  | [] => none
  | x :: xs => some (xs.foldl min x)

/-- Python `max` over a list; `none` models the `ValueError` on an empty list. -/
def listMax : List Nat → Option Nat
  | [] => none
  | x :: xs => some (xs.foldl max x)

/-- Lines 350-365 of `loadDataSetQueries`: per-year day-of-year lists for the
start and end month/day, then `temporal_start_day = min(...)` and
`temporal_end_day = max(...)`.  `none` models an uncaught exception
(invalid date in some year of the range, or an empty year range). -/
def recurringBounds (y0 y1 ms ds me de : Nat) : Option (Nat × Nat) := do
  let ss ← mapOpt (fun y => dateToDoy y ms ds) (yearsRange y0 y1)
  let es ← mapOpt (fun y => dateToDoy y me de) (yearsRange y0 y1)
  let s ← listMin ss
  let e ← listMax es
  pure (s, e)

theorem foldl_min_le_init (xs : List Nat) : ∀ a, xs.foldl min a ≤ a := by
  induction xs with
  | nil => intro a; exact Nat.le_refl a
  | cons x xs ih =>
    intro a
    exact Nat.le_trans (ih (min a x)) (min_le_left a x)

theorem foldl_min_le_mem (xs : List Nat) : ∀ a, ∀ x ∈ xs, xs.foldl min a ≤ x := by
  induction xs with
  | nil => intro a x hx; cases hx
  | cons y ys ih =>
    intro a x hx
    rcases List.mem_cons.mp hx with h | h
    · subst h
      exact Nat.le_trans (foldl_min_le_init ys (min a x)) (min_le_right a x)
    · exact ih (min a y) x h

theorem foldl_min_mem (xs : List Nat) :
    ∀ a, xs.foldl min a = a ∨ xs.foldl min a ∈ xs := by
  induction xs with
  | nil => intro a; exact Or.inl rfl
  | cons x xs ih =>
    intro a
    rcases ih (min a x) with h | h
    · rcases min_cases a x with ⟨hm, _⟩ | ⟨hm, _⟩
      · left; rw [List.foldl_cons, h, hm]
      · right; rw [List.foldl_cons, h, hm]; exact List.mem_cons_self x xs
    · right; rw [List.foldl_cons]; exact List.mem_cons_of_mem x h

theorem foldl_max_init_le (xs : List Nat) : ∀ a, a ≤ xs.foldl max a := by
  induction xs with
  | nil => intro a; exact Nat.le_refl a
  | cons x xs ih =>
    intro a
    exact Nat.le_trans (le_max_left a x) (ih (max a x))

theorem foldl_max_mem_le (xs : List Nat) : ∀ a, ∀ x ∈ xs, x ≤ xs.foldl max a := by
  induction xs with
  | nil => intro a x hx; cases hx
  | cons y ys ih =>
    intro a x hx
    rcases List.mem_cons.mp hx with h | h
    · subst h
      exact Nat.le_trans (le_max_right a x) (foldl_max_init_le ys (max a x))
    · exact ih (max a y) x h

theorem foldl_max_mem (xs : List Nat) :
    ∀ a, xs.foldl max a = a ∨ xs.foldl max a ∈ xs := by
  induction xs with
  | nil => intro a; exact Or.inl rfl
  | cons x xs ih =>
    intro a
    rcases ih (max a x) with h | h
    · rcases max_cases a x with ⟨hm, _⟩ | ⟨hm, _⟩
      · left; rw [List.foldl_cons, h, hm]
      · right; rw [List.foldl_cons, h, hm]; exact List.mem_cons_self x xs
    · right; rw [List.foldl_cons]; exact List.mem_cons_of_mem x h

theorem listMin_spec (l : List Nat) (hl : l ≠ []) :
    ∃ s, listMin l = some s ∧ s ∈ l ∧ ∀ x ∈ l, s ≤ x := by
  cases l with
  | nil => exact absurd rfl hl
  | cons x xs =>
    refine ⟨xs.foldl min x, rfl, ?_, ?_⟩
    · rcases foldl_min_mem xs x with h | h
      · simp [h]
      · exact List.mem_cons_of_mem x h
    · intro y hy
      rcases List.mem_cons.mp hy with h | h
      · rw [h]; exact foldl_min_le_init xs x
      · exact foldl_min_le_mem xs x y h

theorem listMax_spec (l : List Nat) (hl : l ≠ []) :
    ∃ e, listMax l = some e ∧ e ∈ l ∧ ∀ x ∈ l, x ≤ e := by
  cases l with
  | nil => exact absurd rfl hl
  | cons x xs =>
    refine ⟨xs.foldl max x, rfl, ?_, ?_⟩
    · rcases foldl_max_mem xs x with h | h
      · simp [h]
      · exact List.mem_cons_of_mem x h
    · intro y hy
      rcases List.mem_cons.mp hy with h | h
      · rw [h]; exact foldl_max_init_le xs x
      · exact foldl_max_mem_le xs x y h

theorem mapOpt_eq_map (f : α → Option β) (g : α → β) (l : List α)
    (h : ∀ a ∈ l, f a = some (g a)) : mapOpt f l = some (l.map g) := by
  induction l with
  | nil => rfl
  | cons a l ih =>
    have ha := h a (List.mem_cons_self a l)
    have hl := ih (fun x hx => h x (List.mem_cons_of_mem a hx))
    simp [mapOpt, ha, hl]

theorem yearsRange_ne_nil (y0 y1 : Nat) (h : y0 ≤ y1) : yearsRange y0 y1 ≠ [] := by
  unfold yearsRange
  have : y1 + 1 - y0 ≠ 0 := by omega
  intro hc
  have := List.map_eq_nil_iff.mp hc
  rw [List.range_eq_nil] at this
  exact absurd this ‹y1 + 1 - y0 ≠ 0›

/-- Claim C1 (as amended): the recurring-range normalization: whenever both month/day pairs form a
valid calendar date in every year of the (nonempty) year range, the normalization
succeeds and emits the minimum start day-of-year and maximum end day-of-year over
all years, and these bounds enclose the ordinal position of the requested
month/day in every year of the range. -/
theorem C1_recurring_bounds (y0 y1 ms ds me de : Nat) (h01 : y0 ≤ y1)
    (hv : ∀ y ∈ yearsRange y0 y1, validDate y ms ds ∧ validDate y me de) :
    ∃ s e, recurringBounds y0 y1 ms ds me de = some (s, e) ∧
      (∀ y ∈ yearsRange y0 y1, s ≤ dayOfYear y ms ds ∧ dayOfYear y me de ≤ e) ∧
      (∃ ys ∈ yearsRange y0 y1, s = dayOfYear ys ms ds) ∧
      (∃ ye ∈ yearsRange y0 y1, e = dayOfYear ye me de) := by
  have hs : mapOpt (fun y => dateToDoy y ms ds) (yearsRange y0 y1) =
      some ((yearsRange y0 y1).map (fun y => dayOfYear y ms ds)) := by
    refine mapOpt_eq_map _ _ _ (fun y hy => ?_)
    simp [dateToDoy, (hv y hy).1]
  have he : mapOpt (fun y => dateToDoy y me de) (yearsRange y0 y1) =
      some ((yearsRange y0 y1).map (fun y => dayOfYear y me de)) := by
    refine mapOpt_eq_map _ _ _ (fun y hy => ?_)
    simp [dateToDoy, (hv y hy).2]
  have hne := yearsRange_ne_nil y0 y1 h01
  have hnes : (yearsRange y0 y1).map (fun y => dayOfYear y ms ds) ≠ [] := by
    simpa using hne
  have hnee : (yearsRange y0 y1).map (fun y => dayOfYear y me de) ≠ [] := by
    simpa using hne
  obtain ⟨s, hsmin, hsmem, hsle⟩ := listMin_spec _ hnes
  obtain ⟨e, hemax, hemem, hele⟩ := listMax_spec _ hnee
  refine ⟨s, e, ?_, ?_, ?_, ?_⟩
  · simp [recurringBounds, hs, he, hsmin, hemax]
  · intro y hy
    constructor
    · exact hsle _ (List.mem_map_of_mem _ hy)
    · exact hele _ (List.mem_map_of_mem _ hy)
  · obtain ⟨ys, hys, hyeq⟩ := List.mem_map.mp hsmem
    exact ⟨ys, hys, hyeq.symm⟩
  · obtain ⟨ye, hye, hyeq⟩ := List.mem_map.mp hemem
    exact ⟨ye, hye, hyeq.symm⟩

/-- Witness for C1: for years 2019-2021 (spanning leap year 2020) with start
Feb 28 and end Mar 1, the bounds exist and enclose every year's ordinals. -/
theorem C1_recurring_bounds_witness :
    (2019 ≤ 2021 ∧ ∀ y ∈ yearsRange 2019 2021, validDate y 2 28 ∧ validDate y 3 1) ∧
    (∃ s e, recurringBounds 2019 2021 2 28 3 1 = some (s, e) ∧
      (∀ y ∈ yearsRange 2019 2021, s ≤ dayOfYear y 2 28 ∧ dayOfYear y 3 1 ≤ e) ∧
      (∃ ys ∈ yearsRange 2019 2021, s = dayOfYear ys 2 28) ∧
      (∃ ye ∈ yearsRange 2019 2021, e = dayOfYear ye 3 1)) :=
  ⟨⟨by decide, by decide⟩,
    C1_recurring_bounds 2019 2021 2 28 3 1 (by decide) (by decide)⟩

/-- Counterexample for C1: the claim quantifies over every day in [1,31], but for
startMonth=2, startDay=30 (years 2021-2021) `datetime.date` raises an uncaught
`ValueError`, so no day-of-year bounds are computed at all. -/
theorem C1_recurring_bounds_counterexample :
    recurringBounds 2021 2021 2 30 12 31 = none := by decide

/-! ### Entity model (`ECHOpolypoint`, `ECHOgranule`, `ECHOcollection`)

Floating-point sizes and coordinates are modelled as rationals; none of the
verified claims depends on rounding.  The Python integer flag `HasPolyPoints`
(0/1) is a `Bool`. -/

structure ECHOpolypoint where
  latitude : Rat
  longitude : Rat
  dbInsertFailed : Bool
deriving Repr, DecidableEq

structure ECHOgranule where
  egid : String
  granuleUR : String
  granuleSizeMB : Rat
  begDateTime : String
  endDateTime : String
  HasPolyPoints : Bool
  polyPoints : List ECHOpolypoint
  w_bound : Rat
  s_bound : Rat
  e_bound : Rat
  n_bound : Rat
  accessURLs : List (String × String)
  localFileName : String
  numDloadTrys : Nat
  downloadStatus : Int
  dbInsertFailed : Bool
deriving Repr, DecidableEq

/-- `ECHOgranule.__init__`: polypoint tuples become `ECHOpolypoint` objects,
`downloadStatus` starts at 0 and `dbInsertFailed` at false. -/
def mkECHOgranule (gid ur : String) (sizeMB : Rat) (bdt edt : String) (ppflag : Bool)
    (ppts : List (Rat × Rat)) (wbnd sbnd ebnd nbnd : Rat) (aurls : List (String × String))
    (lfn : String) (dltrys : Nat) : ECHOgranule :=
  { egid := gid, granuleUR := ur, granuleSizeMB := sizeMB, begDateTime := bdt,
    endDateTime := edt, HasPolyPoints := ppflag,
    polyPoints := ppts.map (fun p => { latitude := p.1, longitude := p.2, dbInsertFailed := false }),
    w_bound := wbnd, s_bound := sbnd, e_bound := ebnd, n_bound := nbnd,
    accessURLs := aurls, localFileName := lfn, numDloadTrys := dltrys,
    downloadStatus := 0, dbInsertFailed := false }

structure ECHOcollection where
  collID : String
  shortName : String
  archCenter : String
  collDesc : String
  begDateTime : String
  endDateTime : String
  doi : String
  granContainer : List ECHOgranule
  haveFailedDwnlds : Bool
  dbInsertFailed : Bool
deriving Repr, DecidableEq

/-- `ECHOcollection.__init__`: empty granule container, both failure flags false. -/
def mkECHOcollection (cid csn cac ccd bdt edt doi : String) : ECHOcollection :=
  { collID := cid, shortName := csn, archCenter := cac, collDesc := ccd,
    begDateTime := bdt, endDateTime := edt, doi := doi,
    granContainer := [], haveFailedDwnlds := false, dbInsertFailed := false }

/-! ### Pending-download recovery (`ECHOrequest.loadPendDwnld`, lines 521-601)

One `<granule>` element of the pending-download XML file. The `spatial`
element holds either four bounds or a `polyPoints` list; the loader gives
a polygon granule the whole-globe default bounds. -/

inductive PendSpatial where
  | bounds (w s e n : Rat)
  | polyPts (pts : List (Rat × Rat))
deriving Repr, DecidableEq

structure PendGranule where
  granID : String
  dwnldtrys : Nat
  granuleUR : String
  sizeMB : Rat
  begDateTime : String
  endDateTime : String
  spatial : PendSpatial
  accessURL : String
  localFileName : String
deriving Repr, DecidableEq

structure PendCollection where
  collID : String
  shortName : String
  archCenter : String
  collDesc : String
  begDateTime : String
  endDateTime : String
  doi : String
  granules : List PendGranule
deriving Repr, DecidableEq

/-- `ECHOrequest.inCollections`: linear search for a collection id, -1 if absent. -/
def inCollectionsAux : List ECHOcollection → String → Nat → Int
  | [], _, _ => -1
  | c :: cs, cid, i => if c.collID = cid then (i : Int) else inCollectionsAux cs cid (i + 1)

def inCollections (cont : List ECHOcollection) (cid : String) : Int :=
  inCollectionsAux cont cid 0

/-- Inner granule scan of `ECHOrequest.inGranules`, carrying the running index. -/
def findGranIdx : List ECHOgranule → String → Nat → Option Nat
  | [], _, _ => none
  | g :: gs, gid, i => if g.egid = gid then some i else findGranIdx gs gid (i + 1)

/-- `ECHOrequest.inGranules`: the index counter persists across collections
exactly as in the Python nested loop. -/
def inGranulesAux : List ECHOcollection → String → String → Nat → Int
  | [], _, _, _ => -1
  | c :: cs, cid, gid, idx =>
    if c.collID = cid then
      match findGranIdx c.granContainer gid idx with
      | some j => (j : Int)
      | none => inGranulesAux cs cid gid (idx + c.granContainer.length)
    else inGranulesAux cs cid gid idx

def inGranules (cont : List ECHOcollection) (cid gid : String) : Int :=
  inGranulesAux cont cid gid 0

/-- In-place list update at an index (a Python `container[i] = ...` assignment). -/
def modifyAt : List α → Nat → (α → α) → List α
  | [], _, _ => []
  | a :: l, 0, f => f a :: l
  | a :: l, n + 1, f => a :: modifyAt l n f

/-- Construction of the recovered granule object in `loadPendDwnld` (lines
567-596): polygon spatial data forces the whole-globe default bounds; the
access URL is paired with `"NoMimeType"`. -/
def pendToGranule (pg : PendGranule) (trys : Nat) : ECHOgranule :=
  match pg.spatial with
  | .bounds w s e n =>
    mkECHOgranule pg.granID pg.granuleUR pg.sizeMB pg.begDateTime pg.endDateTime
      false [] w s e n [(pg.accessURL, "NoMimeType")] pg.localFileName trys
  | .polyPts pts =>
    mkECHOgranule pg.granID pg.granuleUR pg.sizeMB pg.begDateTime pg.endDateTime
      true pts (-180) (-90) 180 90 [(pg.accessURL, "NoMimeType")] pg.localFileName trys

/-- Body of the per-granule loop of `loadPendDwnld` (lines 556-601):
`numDwnldTrys = int(dwnldtrys) + 1`; a granule already present gets
`setnumtrys(numDwnldTrys + 1)`, a new granule is appended with try count
`numDwnldTrys + 1`. -/
def mergePendGranule (cont : List ECHOcollection) (cid : String) (collIndex : Nat)
    (pg : PendGranule) : List ECHOcollection :=
  let numDwnldTrys := pg.dwnldtrys + 1
  let gidx := inGranules cont cid pg.granID
  if gidx = -1 then
    modifyAt cont collIndex (fun c =>
      { c with granContainer := c.granContainer ++ [pendToGranule pg (numDwnldTrys + 1)] })
  else
    modifyAt cont collIndex (fun c =>
      let gc := modifyAt c.granContainer gidx.toNat
        (fun g => { g with numDloadTrys := numDwnldTrys + 1 })
      { c with granContainer := gc })

/-- Per-collection body of `loadPendDwnld` (lines 533-601): a pending
collection absent from the container is appended, then each pending granule
is merged. -/
def loadPendColl (cont : List ECHOcollection) (pc : PendCollection) : List ECHOcollection :=
  let ci := inCollections cont pc.collID
  let contIdx : List ECHOcollection × Nat :=
    if ci = -1 then
      (cont ++ [mkECHOcollection pc.collID pc.shortName pc.archCenter pc.collDesc
        pc.begDateTime pc.endDateTime pc.doi], cont.length)
    else (cont, ci.toNat)
  pc.granules.foldl (fun acc pg => mergePendGranule acc pc.collID contIdx.2 pg) contIdx.1

/-- `ECHOrequest.loadPendDwnld` over the parsed pending-download file. -/
def loadPendDwnld (cont : List ECHOcollection) (pcs : List PendCollection) :
    List ECHOcollection :=
  pcs.foldl loadPendColl cont

theorem modifyAt_eq_set (l : List α) (n : Nat) (a : α) (f : α → α)
    (h : l.get? n = some a) : modifyAt l n f = l.set n (f a) := by
  induction l generalizing n with
  | nil => cases h
  | cons x xs ih =>
    cases n with
    | zero =>
      simp only [List.get?] at h
      cases h
      rfl
    | succ k =>
      simp only [List.get?] at h
      simp [modifyAt, List.set, ih k h]

theorem findGranIdx_none (gs : List ECHOgranule) (gid : String)
    (h : ∀ g ∈ gs, g.egid ≠ gid) : ∀ n, findGranIdx gs gid n = none := by
  induction gs with
  | nil => intro n; rfl
  | cons g gs ih =>
    intro n
    have hg := h g (List.mem_cons_self g gs)
    simp only [findGranIdx, if_neg hg]
    exact ih (fun g2 hg2 => h g2 (List.mem_cons_of_mem g hg2)) (n + 1)

theorem findGranIdx_some (gs : List ECHOgranule) (gid : String) (j : Nat) (g : ECHOgranule)
    (hj : gs.get? j = some g) (hgid : g.egid = gid)
    (hfirst : ∀ k, k < j → ∀ g2, gs.get? k = some g2 → g2.egid ≠ gid) :
    ∀ n, findGranIdx gs gid n = some (n + j) := by
  induction gs generalizing j with
  | nil => cases hj
  | cons a gs ih =>
    intro n
    cases j with
    | zero =>
      simp only [List.get?] at hj
      cases hj
      simp [findGranIdx, hgid]
    | succ k =>
      have ha : a.egid ≠ gid := hfirst 0 (Nat.succ_pos k) a rfl
      simp only [List.get?] at hj
      have hrest : ∀ m, m < k → ∀ g2, gs.get? m = some g2 → g2.egid ≠ gid := by
        intro m hm g2 hg2
        exact hfirst (m + 1) (Nat.succ_lt_succ hm) g2 hg2
      have := ih k hj hrest (n + 1)
      simp only [findGranIdx, if_neg ha, this]
      congr 1
      omega

theorem inGranulesAux_none (cs : List ECHOcollection) (cid gid : String)
    (h : ∀ c ∈ cs, c.collID ≠ cid) : ∀ idx, inGranulesAux cs cid gid idx = -1 := by
  induction cs with
  | nil => intro idx; rfl
  | cons c cs ih =>
    intro idx
    have hc := h c (List.mem_cons_self c cs)
    simp only [inGranulesAux, if_neg hc]
    exact ih (fun c2 hc2 => h c2 (List.mem_cons_of_mem c hc2)) idx

theorem inGranules_of_unique (cont : List ECHOcollection) (ci : Nat) (c : ECHOcollection)
    (gid : String) (hnd : (cont.map ECHOcollection.collID).Nodup)
    (hc : cont.get? ci = some c) :
    inGranules cont c.collID gid =
      (match findGranIdx c.granContainer gid 0 with
       | some j => (j : Int)
       | none => -1) := by
  induction cont generalizing ci with
  | nil => cases hc
  | cons a cs ih =>
    rw [List.map_cons, List.nodup_cons] at hnd
    cases ci with
    | zero =>
      simp only [List.get?] at hc
      cases hc
      unfold inGranules inGranulesAux
      rw [if_pos rfl]
      cases hidx : findGranIdx c.granContainer gid 0 with
      | some j => simp
      | none =>
        simp only []
        refine inGranulesAux_none cs c.collID gid ?_ _
        intro c2 hc2 hceq
        exact hnd.1 (hceq ▸ List.mem_map_of_mem ECHOcollection.collID hc2)
    | succ k =>
      simp only [List.get?] at hc
      have hmem : c.collID ∈ cs.map ECHOcollection.collID := by
        have : c ∈ cs := List.get?_mem hc
        exact List.mem_map_of_mem ECHOcollection.collID this
      have hne : a.collID ≠ c.collID := fun h => hnd.1 (h ▸ hmem)
      unfold inGranules inGranulesAux
      rw [if_neg hne]
      exact ih k hnd.2 hc

/-- Claim C2 (as amended): the pending-download merge: with unique collection ids,
merging a pending granule whose (collectionId, granuleId) already exists sets
that granule's `downloadTryCount` to the durable record's stored count plus 2
(the source adds 1 twice) without creating a duplicate entry, and merging a
brand-new id appends exactly one entry whose count is the stored count plus 2. -/
theorem C2_merge_pending_granule (cont : List ECHOcollection) (ci : Nat)
    (c : ECHOcollection) (pg : PendGranule)
    (hnd : (cont.map ECHOcollection.collID).Nodup)
    (hc : cont.get? ci = some c) :
    (∀ j g, c.granContainer.get? j = some g → g.egid = pg.granID →
        (∀ k, k < j → ∀ g2, c.granContainer.get? k = some g2 → g2.egid ≠ pg.granID) →
        mergePendGranule cont c.collID ci pg =
          cont.set ci { c with granContainer :=
            (c.granContainer.set j { g with numDloadTrys := pg.dwnldtrys + 2 }) }) ∧
    ((∀ g ∈ c.granContainer, g.egid ≠ pg.granID) →
        mergePendGranule cont c.collID ci pg =
          cont.set ci { c with granContainer :=
            (c.granContainer ++ [pendToGranule pg (pg.dwnldtrys + 2)]) }) := by
  constructor
  · intro j g hj hgid hfirst
    have hfind : findGranIdx c.granContainer pg.granID 0 = some j := by
      simpa using findGranIdx_some c.granContainer pg.granID j g hj hgid hfirst 0
    have hidx : inGranules cont c.collID pg.granID = (j : Int) := by
      rw [inGranules_of_unique cont ci c pg.granID hnd hc, hfind]
    have hne : ((j : Int)) ≠ -1 := by omega
    have htn : ((j : Int)).toNat = j := rfl
    simp only [mergePendGranule, hidx, hne, if_false, htn,
      modifyAt_eq_set cont ci c _ hc, modifyAt_eq_set c.granContainer j g _ hj]
  · intro hnone
    have hfind : findGranIdx c.granContainer pg.granID 0 = none :=
      findGranIdx_none c.granContainer pg.granID hnone 0
    have hidx : inGranules cont c.collID pg.granID = -1 := by
      rw [inGranules_of_unique cont ci c pg.granID hnd hc, hfind]
    simp only [mergePendGranule, hidx, if_pos, modifyAt_eq_set cont ci c _ hc]

/-- Sample granule present in the working set with one recorded download try. -/
def c2granule : ECHOgranule :=
  mkECHOgranule "G1" "UR1" 100 "2020-01-01T00:00:00" "2020-01-02T00:00:00"
    false [] (-180) (-90) 180 90 [("http://x/f.h5", "NoMimeType")] "" 1

/-- Sample collection holding `c2granule`. -/
def c2coll : ECHOcollection :=
  { collID := "C1", shortName := "SN", archCenter := "AC", collDesc := "D",
    begDateTime := "b", endDateTime := "e", doi := "doi",
    granContainer := [c2granule], haveFailedDwnlds := false, dbInsertFailed := false }

/-- Durable pending record for the same granule id, saved with one failed try. -/
def c2pend : PendGranule :=
  { granID := "G1", dwnldtrys := 1, granuleUR := "UR1", sizeMB := 100,
    begDateTime := "2020-01-01T00:00:00", endDateTime := "2020-01-02T00:00:00",
    spatial := .bounds (-10) (-10) 10 10, accessURL := "http://x/f.h5",
    localFileName := "/data/f.h5" }

/-- Pending record with a granule id that is not in the working set. -/
def c2pendNew : PendGranule :=
  { granID := "G2", dwnldtrys := 1, granuleUR := "UR2", sizeMB := 50,
    begDateTime := "2020-01-03T00:00:00", endDateTime := "2020-01-04T00:00:00",
    spatial := .bounds (-10) (-10) 10 10, accessURL := "http://x/g.h5",
    localFileName := "/data/g.h5" }

/-- Counterexample for C2: merging a pending granule stored with `dwnldtrys = 1`
onto an existing entry leaves a single entry (no duplicate) but sets its try
count to 3, not the stored count plus 1 (= 2) that the claim requires. -/
theorem C2_merge_pending_granule_counterexample :
    ((mergePendGranule [c2coll] "C1" 0 c2pend).map
        (fun c => c.granContainer.map (fun g => g.numDloadTrys))) = [[3]] ∧
      (3 : Nat) ≠ c2pend.dwnldtrys + 1 := by
  constructor
  · rfl
  · decide

/-- Witness for C2: both branches of the amended merge claim hold on concrete data. -/
theorem C2_merge_pending_granule_witness :
    (([c2coll].map ECHOcollection.collID).Nodup ∧
      ([c2coll].get? 0 = some c2coll)) ∧
    mergePendGranule [c2coll] c2coll.collID 0 c2pend =
      [c2coll].set 0 { c2coll with granContainer :=
        ([c2granule].set 0 { c2granule with numDloadTrys := c2pend.dwnldtrys + 2 }) } ∧
    mergePendGranule [c2coll] c2coll.collID 0 c2pendNew =
      [c2coll].set 0 { c2coll with granContainer :=
        ([c2granule] ++ [pendToGranule c2pendNew (c2pendNew.dwnldtrys + 2)]) } := by
  refine ⟨⟨by decide, rfl⟩, ?_, ?_⟩
  · exact (C2_merge_pending_granule [c2coll] 0 c2coll c2pend (by decide) rfl).1
      0 c2granule rfl rfl (fun k hk g2 _ => absurd hk (Nat.not_lt_zero k))
  · exact (C2_merge_pending_granule [c2coll] 0 c2coll c2pendNew (by decide) rfl).2
      (by decide)

/-! ### Pending database transactions (`ECHOptxHandler`, lines 1783-1974)

A pending-transaction entry is the list of captured field values of one
`<collection>`, `<granule>` or `<polypoint>` element; whether an SQL insert
built from it succeeds is an oracle `TxEntry → Bool` (`makeDBinsert`).
`processtx` removes each successfully replayed element from the parsed XML
root (`pendRoot.remove(transaction)`), so on the first failure the root holds
exactly the failing entry and everything after it, which is what gets
re-serialized before `raise SystemExit`. -/

inductive TxType where
  | C
  | G
  | P
deriving Repr, DecidableEq

/-- Field values captured for one pending transaction. -/
abbrev TxEntry := List String

inductive TxOutcome where
  | completed
  | abortedWith (remaining : List TxEntry)
deriving Repr, DecidableEq

/-- Replay loop of `ECHOptxHandler.processtx`: insert each entry in order;
stop at the first failure with the not-yet-replayed suffix (failing entry
included). -/
def processtx (ins : TxEntry → Bool) : List TxEntry → TxOutcome
  | [] => .completed
  | t :: ts => if ins t then processtx ins ts else .abortedWith (t :: ts)

/-- Observable actions of the pending-transaction subsystem. -/
inductive PTXEvent where
  | insertTry (k : TxType) (t : TxEntry) (ok : Bool)
  | rewriteFile (k : TxType) (remaining : List TxEntry)
  | removeFile (k : TxType)
  | exitRun
deriving Repr, DecidableEq

/-- Kind tag of an event, if it has one. -/
def PTXEvent.ofKind : PTXEvent → Option TxType
  | .insertTry k _ _ => some k
  | .rewriteFile k _ => some k
  | .removeFile k => some k
  | .exitRun => none

/-- `processtx` with its insert-attempt trace. -/
def processtxTrace (ins : TxEntry → Bool) (k : TxType) :
    List TxEntry → List PTXEvent × TxOutcome
  | [] => ([], .completed)
  | t :: ts =>
    if ins t then
      let r := processtxTrace ins k ts
      (.insertTry k t true :: r.1, r.2)
    else ([.insertTry k t false], .abortedWith (t :: ts))

/-- One kind inside `processPending`: replay the durable queue for `k` if it
exists, then either remove the file (all entries replayed, `rmOk` is the
`os.remove` outcome) or re-serialize the remaining entries (`wOk` is the
re-open-for-write outcome) and exit.  Returns the event trace, whether the
run continues to the next kind, and the final durable file content. -/
def runKind (ins : TxEntry → Bool) (wOk rmOk : Bool) (k : TxType) :
    Option (List TxEntry) → List PTXEvent × Bool × Option (List TxEntry)
  | none => ([], true, none)
  | some ts =>
    match processtxTrace ins k ts with
    | (evs, .completed) =>
      if rmOk then (evs ++ [.removeFile k], true, none)
      else (evs ++ [.exitRun], false, some ts)
    | (evs, .abortedWith rem) =>
      if wOk then (evs ++ [.rewriteFile k rem, .exitRun], false, some rem)
      else (evs ++ [.exitRun], false, some ts)

structure PTXResult where
  trace : List PTXEvent
  cfile : Option (List TxEntry)
  gfile : Option (List TxEntry)
  pfile : Option (List TxEntry)
deriving Repr, DecidableEq

/-- `ECHOptxHandler.processPending`: Collection kind, then Granule kind, then
PolyPoint kind; a later kind is attempted only if every earlier kind replayed
to completion and its durable file was removed (otherwise `raise SystemExit`
already ended the run and the later durable files are untouched). -/
def processPending (insC insG insP : TxEntry → Bool) (wC rC wG rG wP rP : Bool)
    (cq gq pq : Option (List TxEntry)) : PTXResult :=
  match runKind insC wC rC .C cq with
  | (evC, false, fC) => { trace := evC, cfile := fC, gfile := gq, pfile := pq }
  | (evC, true, fC) =>
    match runKind insG wG rG .G gq with
    | (evG, false, fG) => { trace := evC ++ evG, cfile := fC, gfile := fG, pfile := pq }
    | (evG, true, fG) =>
      match runKind insP wP rP .P pq with
      | (evP, _, fP) =>
        { trace := evC ++ (evG ++ evP), cfile := fC, gfile := fG, pfile := fP }

theorem processtxTrace_all_success (ins : TxEntry → Bool) (k : TxType) (ts : List TxEntry)
    (h : ∀ u ∈ ts, ins u = true) :
    processtxTrace ins k ts = (ts.map (fun u => .insertTry k u true), .completed) := by
  induction ts with
  | nil => rfl
  | cons t ts ih =>
    have ht := h t (List.mem_cons_self t ts)
    have hrest := ih (fun u hu => h u (List.mem_cons_of_mem t hu))
    simp [processtxTrace, ht, hrest]

theorem processtxTrace_first_fail (ins : TxEntry → Bool) (k : TxType)
    (ts1 : List TxEntry) (t : TxEntry) (ts2 : List TxEntry)
    (h1 : ∀ u ∈ ts1, ins u = true) (ht : ins t = false) :
    processtxTrace ins k (ts1 ++ t :: ts2) =
      (ts1.map (fun u => .insertTry k u true) ++ [.insertTry k t false],
       .abortedWith (t :: ts2)) := by
  induction ts1 with
  | nil => simp [processtxTrace, ht]
  | cons u ts1 ih =>
    have hu := h1 u (List.mem_cons_self u ts1)
    have hrest := ih (fun v hv => h1 v (List.mem_cons_of_mem u hv))
    simp [processtxTrace, hu, hrest]

theorem processtx_first_fail (ins : TxEntry → Bool)
    (ts1 : List TxEntry) (t : TxEntry) (ts2 : List TxEntry)
    (h1 : ∀ u ∈ ts1, ins u = true) (ht : ins t = false) :
    processtx ins (ts1 ++ t :: ts2) = .abortedWith (t :: ts2) := by
  induction ts1 with
  | nil => simp [processtx, ht]
  | cons u ts1 ih =>
    have hu := h1 u (List.mem_cons_self u ts1)
    have hrest := ih (fun v hv => h1 v (List.mem_cons_of_mem u hv))
    simp [processtx, hu, hrest]

theorem processtxTrace_kind (ins : TxEntry → Bool) (k : TxType) (ts : List TxEntry) :
    ∀ ev ∈ (processtxTrace ins k ts).1, PTXEvent.ofKind ev = some k := by
  induction ts with
  | nil => intro ev hev; cases hev
  | cons t ts ih =>
    intro ev hev
    by_cases ht : ins t
    · simp only [processtxTrace, if_pos ht] at hev
      rcases List.mem_cons.mp hev with h | h
      · subst h; rfl
      · exact ih ev h
    · simp only [processtxTrace, if_neg ht] at hev
      rcases List.mem_cons.mp hev with h | h
      · subst h; rfl
      · cases h

theorem runKind_kind (ins : TxEntry → Bool) (wOk rmOk : Bool) (k : TxType)
    (q : Option (List TxEntry)) :
    ∀ ev ∈ (runKind ins wOk rmOk k q).1,
      PTXEvent.ofKind ev = some k ∨ ev = .exitRun := by
  intro ev hev
  cases q with
  | none => cases hev
  | some ts =>
    simp only [runKind] at hev
    rcases hout : processtxTrace ins k ts with ⟨evs, out⟩
    rw [hout] at hev
    have hevs : ∀ e2 ∈ evs, PTXEvent.ofKind e2 = some k := by
      intro e2 he2
      have := processtxTrace_kind ins k ts e2
      rw [hout] at this
      exact this he2
    cases out with
    | completed =>
      by_cases hrm : rmOk
      · simp only [if_pos hrm] at hev
        rcases List.mem_append.mp hev with h | h
        · exact Or.inl (hevs ev h)
        · rcases List.mem_cons.mp h with h2 | h2
          · subst h2; exact Or.inl rfl
          · cases h2
      · simp only [if_neg hrm] at hev
        rcases List.mem_append.mp hev with h | h
        · exact Or.inl (hevs ev h)
        · rcases List.mem_cons.mp h with h2 | h2
          · subst h2; exact Or.inr rfl
          · cases h2
    | abortedWith rem =>
      by_cases hw : wOk
      · simp only [if_pos hw] at hev
        rcases List.mem_append.mp hev with h | h
        · exact Or.inl (hevs ev h)
        · rcases List.mem_cons.mp h with h2 | h2
          · subst h2; exact Or.inl rfl
          · rcases List.mem_cons.mp h2 with h3 | h3
            · subst h3; exact Or.inr rfl
            · cases h3
      · simp only [if_neg hw] at hev
        rcases List.mem_append.mp hev with h | h
        · exact Or.inl (hevs ev h)
        · rcases List.mem_cons.mp h with h2 | h2
          · subst h2; exact Or.inr rfl
          · cases h2

theorem runKind_continue_true (ins : TxEntry → Bool) (wOk rmOk : Bool) (k : TxType)
    (ts : List TxEntry) (h : (runKind ins wOk rmOk k (some ts)).2.1 = true) :
    runKind ins wOk rmOk k (some ts) =
      ((processtxTrace ins k ts).1 ++ [.removeFile k], true, none) := by
  simp only [runKind] at h ⊢
  rcases hout : processtxTrace ins k ts with ⟨evs, out⟩
  cases out with
  | completed =>
    by_cases hrm : rmOk
    · simp [if_pos hrm]
    · rw [hout] at h; simp [if_neg hrm] at h
  | abortedWith rem =>
    by_cases hw : wOk
    · rw [hout] at h; simp [if_pos hw] at h
    · rw [hout] at h; simp [if_neg hw] at h

theorem get_before (pre evs tail : List PTXEvent) (x ev : PTXEvent) (j : Nat)
    (h : (pre ++ (evs ++ x :: tail))[j]? = some ev)
    (hne1 : ev ∉ pre) (hne2 : ev ∉ evs) (hne3 : ev ≠ x) :
    ∃ i, i < j ∧ (pre ++ (evs ++ x :: tail))[i]? = some x := by
  have hL : pre ++ (evs ++ x :: tail) = (pre ++ evs) ++ x :: tail :=
    (List.append_assoc pre evs (x :: tail)).symm
  have hget : (pre ++ (evs ++ x :: tail))[(pre ++ evs).length]? = some x := by
    rw [hL, List.getElem?_append_right (Nat.le_refl _)]
    simp
  rcases Nat.lt_trichotomy j (pre ++ evs).length with hlt | heq | hgt
  · exfalso
    rw [hL, List.getElem?_append_left hlt] at h
    rcases List.mem_append.mp (List.getElem?_mem h) with hm | hm
    · exact hne1 hm
    · exact hne2 hm
  · exfalso
    rw [← heq] at hget
    rw [h] at hget
    exact hne3 (Option.some.inj hget)
  · exact ⟨(pre ++ evs).length, hgt, hget⟩

theorem insertTry_not_in_processtxTrace (ins : TxEntry → Bool) (k : TxType)
    (ts : List TxEntry) (k2 : TxType) (e : TxEntry) (b : Bool) (hkk : k2 ≠ k) :
    PTXEvent.insertTry k2 e b ∉ (processtxTrace ins k ts).1 := by
  intro hmem
  have hk := processtxTrace_kind ins k ts _ hmem
  simp [PTXEvent.ofKind] at hk
  exact hkk hk

theorem insertTry_not_in_runKind (ins : TxEntry → Bool) (wOk rmOk : Bool) (k k2 : TxType)
    (e : TxEntry) (b : Bool) (q : Option (List TxEntry)) (hkk : k2 ≠ k) :
    PTXEvent.insertTry k2 e b ∉ (runKind ins wOk rmOk k q).1 := by
  intro hmem
  rcases runKind_kind ins wOk rmOk k q _ hmem with h | h
  · simp [PTXEvent.ofKind] at h
    exact hkk h
  · exact PTXEvent.noConfusion h

/-- Claim C3: the replay loop stops at the first insert failure; in that
case the durable store for that kind is rewritten with exactly the
not-yet-replayed entries (failing entry included, successfully replayed
entries excluded) and the run exits; a Granule-kind queue holding one failing
entry is rewritten to exactly that entry and the PolyPoint-kind queue is
never attempted; a kind whose entries all replay successfully has its durable
queue deleted. -/
theorem C3_replay_failfast :
    (∀ (ins : TxEntry → Bool) (ts1 : List TxEntry) (t : TxEntry) (ts2 : List TxEntry),
        (∀ u ∈ ts1, ins u = true) → ins t = false →
        processtx ins (ts1 ++ t :: ts2) = .abortedWith (t :: ts2)) ∧
    (∀ (ins : TxEntry → Bool) (rmOk : Bool) (k : TxType)
        (ts1 : List TxEntry) (t : TxEntry) (ts2 : List TxEntry),
        (∀ u ∈ ts1, ins u = true) → ins t = false →
        runKind ins true rmOk k (some (ts1 ++ t :: ts2)) =
          (ts1.map (fun u => .insertTry k u true) ++
              [.insertTry k t false, .rewriteFile k (t :: ts2), .exitRun],
           false, some (t :: ts2))) ∧
    (∀ (ins : TxEntry → Bool) (wOk : Bool) (k : TxType) (ts : List TxEntry),
        (∀ u ∈ ts, ins u = true) →
        runKind ins wOk true k (some ts) =
          (ts.map (fun u => .insertTry k u true) ++ [.removeFile k], true, none)) ∧
    (∀ (insC insG insP : TxEntry → Bool) (wC rC rG wP rP : Bool)
        (e : TxEntry) (pq : Option (List TxEntry)),
        insG e = false →
        processPending insC insG insP wC rC true rG wP rP none (some [e]) pq =
          { trace := [.insertTry .G e false, .rewriteFile .G [e], .exitRun],
            cfile := none, gfile := some [e], pfile := pq }) := by
  refine ⟨processtx_first_fail, ?_, ?_, ?_⟩
  · intro ins rmOk k ts1 t ts2 h1 ht
    simp only [runKind]
    rw [processtxTrace_first_fail ins k ts1 t ts2 h1 ht]
    simp
  · intro ins wOk k ts h
    simp only [runKind]
    rw [processtxTrace_all_success ins k ts h]
    simp
  · intro insC insG insP wC rC rG wP rP e pq hins
    have hg : runKind insG true rG .G (some [e]) =
        ([.insertTry .G e false, .rewriteFile .G [e], .exitRun], false, some [e]) := by
      simp only [runKind]
      have hone : processtxTrace insG .G [e] =
          ([.insertTry .G e false], .abortedWith [e]) := by
        simp [processtxTrace, hins]
      rw [hone]
      simp
    have hc0 : runKind insC wC rC .C none = ([], true, none) := rfl
    unfold processPending
    rw [hc0, hg]
    rfl

/-- Witness for C3: a Granule-kind queue with one entry whose insert fails is
rewritten to exactly that entry and the PolyPoint-kind queue is untouched. -/
theorem C3_replay_failfast_witness :
    ((fun _ : TxEntry => false) ["g1"] = false) ∧
    processPending (fun _ => true) (fun _ => false) (fun _ => true)
        true true true true true true none (some [["g1"]]) (some [["p1"]]) =
      { trace := [.insertTry .G ["g1"] false, .rewriteFile .G [["g1"]], .exitRun],
        cfile := none, gfile := some [["g1"]], pfile := some [["p1"]] } :=
  ⟨rfl, C3_replay_failfast.2.2.2 (fun _ => true) (fun _ => false) (fun _ => true)
      true true true true true ["g1"] (some [["p1"]]) rfl⟩

/-- Claim C7: in any replay, whenever a durable
Collection-kind queue is present, its removal precedes every Granule-kind
insert attempt, and whenever a Granule-kind queue is present, its removal
precedes every PolyPoint-kind insert attempt. -/
theorem C7_replay_order (insC insG insP : TxEntry → Bool) (wC rC wG rG wP rP : Bool)
    (cq gq pq : Option (List TxEntry)) :
    (∀ l, cq = some l → ∀ (j : Nat) (e : TxEntry) (b : Bool),
        (processPending insC insG insP wC rC wG rG wP rP cq gq pq).trace[j]? =
          some (PTXEvent.insertTry .G e b) →
        ∃ i : Nat, i < j ∧
          (processPending insC insG insP wC rC wG rG wP rP cq gq pq).trace[i]? =
            some (PTXEvent.removeFile .C)) ∧
    (∀ l, gq = some l → ∀ (j : Nat) (e : TxEntry) (b : Bool),
        (processPending insC insG insP wC rC wG rG wP rP cq gq pq).trace[j]? =
          some (PTXEvent.insertTry .P e b) →
        ∃ i : Nat, i < j ∧
          (processPending insC insG insP wC rC wG rG wP rP cq gq pq).trace[i]? =
            some (PTXEvent.removeFile .G)) := by
  constructor
  · intro l hcq j e b hj
    subst hcq
    rcases h1 : runKind insC wC rC .C (some l) with ⟨evC, bC, fC⟩
    cases bC with
    | false =>
      have htr : (processPending insC insG insP wC rC wG rG wP rP (some l) gq pq).trace
          = evC := by
        unfold processPending
        rw [h1]
      rw [htr] at hj
      have hnot : PTXEvent.insertTry .G e b ∉ (runKind insC wC rC .C (some l)).1 :=
        insertTry_not_in_runKind insC wC rC .C .G e b (some l) (fun h => nomatch h)
      rw [h1] at hnot
      exact absurd (List.getElem?_mem hj) hnot
    | true =>
      have hc2 : (runKind insC wC rC .C (some l)).2.1 = true := by rw [h1]
      have hAeq := runKind_continue_true insC wC rC .C l hc2
      rw [h1] at hAeq
      have hevC : evC = (processtxTrace insC .C l).1 ++ [.removeFile .C] :=
        congrArg (fun p => p.1) hAeq
      obtain ⟨tl, htr⟩ :
          ∃ tl, (processPending insC insG insP wC rC wG rG wP rP (some l) gq pq).trace
            = evC ++ tl := by
        unfold processPending
        rw [h1]
        rcases runKind insG wG rG .G gq with ⟨evG, bG, fG⟩
        cases bG with
        | false => exact ⟨evG, rfl⟩
        | true =>
          rcases runKind insP wP rP .P pq with ⟨evP, bP, fP⟩
          exact ⟨evG ++ evP, rfl⟩
      rw [htr, hevC, List.append_assoc, List.singleton_append] at hj
      obtain ⟨i, hij, hgi⟩ := get_before [] ((processtxTrace insC .C l).1) tl
        (.removeFile .C) (.insertTry .G e b) j hj (by simp)
        (insertTry_not_in_processtxTrace insC .C l .G e b (fun h => nomatch h))
        (fun h => nomatch h)
      refine ⟨i, hij, ?_⟩
      rw [htr, hevC, List.append_assoc, List.singleton_append]
      exact hgi
  · intro l hgq j e b hj
    subst hgq
    rcases h1 : runKind insC wC rC .C cq with ⟨evC, bC, fC⟩
    cases bC with
    | false =>
      have htr : (processPending insC insG insP wC rC wG rG wP rP cq (some l) pq).trace
          = evC := by
        unfold processPending
        rw [h1]
      rw [htr] at hj
      have hnot : PTXEvent.insertTry .P e b ∉ (runKind insC wC rC .C cq).1 :=
        insertTry_not_in_runKind insC wC rC .C .P e b cq (fun h => nomatch h)
      rw [h1] at hnot
      exact absurd (List.getElem?_mem hj) hnot
    | true =>
      rcases h2 : runKind insG wG rG .G (some l) with ⟨evG, bG, fG⟩
      cases bG with
      | false =>
        have htr : (processPending insC insG insP wC rC wG rG wP rP cq (some l) pq).trace
            = evC ++ evG := by
          unfold processPending
          rw [h1, h2]
        rw [htr] at hj
        rcases List.mem_append.mp (List.getElem?_mem hj) with hm | hm
        · have hnot : PTXEvent.insertTry .P e b ∉ (runKind insC wC rC .C cq).1 :=
            insertTry_not_in_runKind insC wC rC .C .P e b cq (fun h => nomatch h)
          rw [h1] at hnot
          exact absurd hm hnot
        · have hnot : PTXEvent.insertTry .P e b ∉ (runKind insG wG rG .G (some l)).1 :=
            insertTry_not_in_runKind insG wG rG .G .P e b (some l) (fun h => nomatch h)
          rw [h2] at hnot
          exact absurd hm hnot
      | true =>
        have hg2 : (runKind insG wG rG .G (some l)).2.1 = true := by rw [h2]
        have hGeq := runKind_continue_true insG wG rG .G l hg2
        rw [h2] at hGeq
        have hevG : evG = (processtxTrace insG .G l).1 ++ [.removeFile .G] :=
          congrArg (fun p => p.1) hGeq
        rcases h3 : runKind insP wP rP .P pq with ⟨evP, bP, fP⟩
        have htr : (processPending insC insG insP wC rC wG rG wP rP cq (some l) pq).trace
            = evC ++ (evG ++ evP) := by
          unfold processPending
          rw [h1, h2, h3]
        rw [htr, hevG, List.append_assoc, List.singleton_append] at hj
        have hne1 : PTXEvent.insertTry .P e b ∉ evC := by
          have hnot : PTXEvent.insertTry .P e b ∉ (runKind insC wC rC .C cq).1 :=
            insertTry_not_in_runKind insC wC rC .C .P e b cq (fun h => nomatch h)
          rw [h1] at hnot
          exact hnot
        obtain ⟨i, hij, hgi⟩ := get_before evC ((processtxTrace insG .G l).1) evP
          (.removeFile .G) (.insertTry .P e b) j hj hne1
          (insertTry_not_in_processtxTrace insG .G l .P e b (fun h => nomatch h))
          (fun h => nomatch h)
        refine ⟨i, hij, ?_⟩
        rw [htr, hevG, List.append_assoc, List.singleton_append]
        exact hgi

/-- Witness for C7: with all three queues present and every insert succeeding, the
Granule-kind insert attempt at position 2 is preceded by the Collection-kind
file removal, and the PolyPoint-kind insert attempt at position 4 is preceded
by the Granule-kind file removal. -/
theorem C7_replay_order_witness :
    ((processPending (fun _ => true) (fun _ => true) (fun _ => true)
        true true true true true true
        (some [["c1"]]) (some [["g1"]]) (some [["p1"]])).trace[2]? =
      some (PTXEvent.insertTry .G ["g1"] true) ∧
     ∃ i : Nat, i < 2 ∧
      (processPending (fun _ => true) (fun _ => true) (fun _ => true)
        true true true true true true
        (some [["c1"]]) (some [["g1"]]) (some [["p1"]])).trace[i]? =
        some (PTXEvent.removeFile .C)) ∧
    ((processPending (fun _ => true) (fun _ => true) (fun _ => true)
        true true true true true true
        (some [["c1"]]) (some [["g1"]]) (some [["p1"]])).trace[4]? =
      some (PTXEvent.insertTry .P ["p1"] true) ∧
     ∃ i : Nat, i < 4 ∧
      (processPending (fun _ => true) (fun _ => true) (fun _ => true)
        true true true true true true
        (some [["c1"]]) (some [["g1"]]) (some [["p1"]])).trace[i]? =
        some (PTXEvent.removeFile .G)) :=
  ⟨⟨by decide,
    (C7_replay_order (fun _ => true) (fun _ => true) (fun _ => true)
      true true true true true true
      (some [["c1"]]) (some [["g1"]]) (some [["p1"]])).1
      [["c1"]] rfl 2 ["g1"] true (by decide)⟩,
   ⟨by decide,
    (C7_replay_order (fun _ => true) (fun _ => true) (fun _ => true)
      true true true true true true
      (some [["c1"]]) (some [["g1"]]) (some [["p1"]])).2
      [["g1"]] rfl 4 ["p1"] true (by decide)⟩⟩

/-! ### Feasibility check (`ECHOdownloader.downloadOk` and `__init__`, lines 1252-1303)

Available disk space, the download limit and granule sizes are rationals.
`mkECHOdownloader` models `ECHOdownloader.__init__`: it raises `SystemExit`
(`none`) when `downloadOk` fails, before `downloadGranules` (and hence any
`makeCollPath`/`makeGranPath` directory provisioning) can run. -/

structure EROState where
  collContainer : List ECHOcollection
  availDiskSpaceMB : Rat
  dwnloadLimit : Rat
deriving Repr, DecidableEq

/-- `ECHOcollection.getCollSizeMB`: sum of the collection's granule sizes. -/
def getCollSizeMB (c : ECHOcollection) : Rat :=
  c.granContainer.foldl (fun acc g => acc + g.granuleSizeMB) 0

/-- The `totalDataSizeMB` accumulation loop of `downloadOk` (lines 1274-1278). -/
def totalDataSizeMB (ero : EROState) : Rat :=
  ero.collContainer.foldl (fun acc c => acc + getCollSizeMB c) 0

/-- `ECHOdownloader.downloadOk` (lines 1269-1303): warn-but-accept on
non-positive totals, reject when the total reaches the available space or
exceeds the configured limit. -/
def downloadOk (ero : EROState) : Bool :=
  if totalDataSizeMB ero ≤ 0 then true
  else if ero.availDiskSpaceMB ≤ totalDataSizeMB ero then false
  else if ero.dwnloadLimit < totalDataSizeMB ero then false
  else true

structure ECHOdownloaderState where
  rootDir : String
  granuleQueue : List (String × String × String)
  granuleStatus : List (String × Int)
deriving Repr, DecidableEq

/-- `ECHOdownloader.__init__` (lines 1252-1267): empty queue and status map;
`none` models the `raise SystemExit` taken when `downloadOk` returns false,
which happens before any directory creation. -/
def mkECHOdownloader (ero : EROState) (rootDir : String) : Option ECHOdownloaderState :=
  if downloadOk ero then
    some { rootDir := rootDir, granuleQueue := [], granuleStatus := [] }
  else none

/-- Claim C4: with the physically guaranteed non-negative disk space
and validated non-negative download limit, a total exceeding either bound is
rejected and the downloader aborts before construction (hence before any
directory provisioning), while a non-positive total is accepted. -/
theorem C4_feasibility (ero : EROState) (rd : String)
    (ha : 0 ≤ ero.availDiskSpaceMB) (hl : 0 ≤ ero.dwnloadLimit) :
    ((ero.availDiskSpaceMB < totalDataSizeMB ero ∨
        ero.dwnloadLimit < totalDataSizeMB ero) →
      downloadOk ero = false ∧ mkECHOdownloader ero rd = none) ∧
    (totalDataSizeMB ero ≤ 0 → downloadOk ero = true) := by
  constructor
  · intro hexc
    have hok : downloadOk ero = false := by
      have hpos : ¬ totalDataSizeMB ero ≤ 0 := by
        rcases hexc with h | h
        · intro hle; linarith
        · intro hle; linarith
      unfold downloadOk
      rw [if_neg hpos]
      by_cases h2 : ero.availDiskSpaceMB ≤ totalDataSizeMB ero
      · rw [if_pos h2]
      · have h3 : ero.dwnloadLimit < totalDataSizeMB ero := by
          rcases hexc with h | h
          · exact absurd h.le h2
          · exact h
        rw [if_neg h2, if_pos h3]
    refine ⟨hok, ?_⟩
    unfold mkECHOdownloader
    rw [hok]
    rfl
  · intro hle
    unfold downloadOk
    rw [if_pos hle]

/-- Single-granule 150MB collection for the feasibility witness. -/
def c4ero : EROState :=
  { collContainer :=
      [{ collID := "C1", shortName := "SN", archCenter := "AC", collDesc := "D",
         begDateTime := "b", endDateTime := "e", doi := "doi",
         granContainer :=
           [mkECHOgranule "G1" "UR1" 150 "2020-01-01T00:00:00" "2020-01-02T00:00:00"
             false [] (-180) (-90) 180 90 [("http://x/f.h5", "NoMimeType")] "" 1],
         haveFailedDwnlds := false, dbInsertFailed := false }],
    availDiskSpaceMB := 100, dwnloadLimit := 1000 }

/-- Witness for C4: 150MB requested with 100MB available is rejected before the
downloader object exists. -/
theorem C4_feasibility_witness :
    ((0 : Rat) ≤ c4ero.availDiskSpaceMB ∧ (0 : Rat) ≤ c4ero.dwnloadLimit ∧
      c4ero.availDiskSpaceMB < totalDataSizeMB c4ero) ∧
    (downloadOk c4ero = false ∧ mkECHOdownloader c4ero "/data" = none) :=
  ⟨⟨by norm_num [c4ero], by norm_num [c4ero],
    by norm_num [c4ero, totalDataSizeMB, getCollSizeMB, mkECHOgranule]⟩,
    (C4_feasibility c4ero "/data" (by norm_num [c4ero]) (by norm_num [c4ero])).1
      (Or.inl (by norm_num [c4ero, totalDataSizeMB, getCollSizeMB, mkECHOgranule]))⟩

/-! ### Persistence update pass (`ECHOdbHandler.update`, lines 1732-1780)

The external store is an oracle: `collInDB` is the result of the
`select shortName from collections where collID = ...` probe being nonempty,
and the three insert oracles are `makeDBinsert` outcomes for the SQL built by
`collectionInsert`, `granuleInsert` and `polypointInsert`. The event list
records every insert attempt in program order. -/

structure DBOracle where
  collInDB : String → Bool
  collInsertOk : String → Bool
  granInsertOk : String → Bool
  ppInsertOk : String → Rat → Rat → Bool

inductive DBEvent where
  | collInsertEv (cid : String) (ok : Bool)
  | granInsertEv (gid cid : String) (ok : Bool)
  | ppInsertEv (gid : String) (lat lon : Rat) (ok : Bool)
deriving Repr, DecidableEq

def taintPolyPoint (pp : ECHOpolypoint) : ECHOpolypoint :=
  { pp with dbInsertFailed := true }

/-- Cascade of `setInsertFailed(True)` over a granule and its polypoints. -/
def taintGranule (g : ECHOgranule) : ECHOgranule :=
  { g with dbInsertFailed := true, polyPoints := g.polyPoints.map taintPolyPoint }

/-- PolyPoint loop of `update` (lines 1774-1780): each polypoint is inserted
independently; only individually failing ones are tainted. -/
def updatePolyPoints (o : DBOracle) (gid : String) :
    List ECHOpolypoint → List ECHOpolypoint × List DBEvent
  | [] => ([], [])
  | pp :: pps =>
    let ok := o.ppInsertOk gid pp.latitude pp.longitude
    let r := updatePolyPoints o gid pps
    ((if ok then pp else taintPolyPoint pp) :: r.1,
     .ppInsertEv gid pp.latitude pp.longitude ok :: r.2)

/-- Granule body of `update` (lines 1758-1780): only granules with
`downloadStatus == 1` are inserted; a granule insert failure taints the
granule and all its polypoints and skips their inserts. -/
def updateGran (o : DBOracle) (cid : String) (g : ECHOgranule) :
    ECHOgranule × List DBEvent :=
  if g.downloadStatus = 1 then
    if o.granInsertOk g.egid then
      if g.HasPolyPoints then
        let r := updatePolyPoints o g.egid g.polyPoints
        ({ g with polyPoints := r.1 }, .granInsertEv g.egid cid true :: r.2)
      else (g, [.granInsertEv g.egid cid true])
    else (taintGranule g, [.granInsertEv g.egid cid false])
  else (g, [])

def updateGrans (o : DBOracle) (cid : String) :
    List ECHOgranule → List ECHOgranule × List DBEvent
  | [] => ([], [])
  | g :: gs =>
    let r1 := updateGran o cid g
    let r2 := updateGrans o cid gs
    (r1.1 :: r2.1, r1.2 ++ r2.2)

/-- Per-collection body of `ECHOdbHandler.update` (lines 1736-1780): with at
least one granule, probe the store; insert the collection if absent; on
insert failure taint the collection and every granule and polypoint it owns
and skip all granule processing. -/
def updateColl (o : DBOracle) (c : ECHOcollection) : ECHOcollection × List DBEvent :=
  if 0 < c.granContainer.length then
    if o.collInDB c.collID then
      let r := updateGrans o c.collID c.granContainer
      ({ c with granContainer := r.1 }, r.2)
    else if o.collInsertOk c.collID then
      let r := updateGrans o c.collID c.granContainer
      ({ c with granContainer := r.1 }, .collInsertEv c.collID true :: r.2)
    else
      ({ c with dbInsertFailed := true, granContainer := c.granContainer.map taintGranule },
       [.collInsertEv c.collID false])
  else (c, [])

/-- `ECHOdbHandler.update` over the whole working set. -/
def dbUpdate (o : DBOracle) : List ECHOcollection → List ECHOcollection × List DBEvent
  | [] => ([], [])
  | c :: cs =>
    let r1 := updateColl o c
    let r2 := dbUpdate o cs
    (r1.1 :: r2.1, r1.2 ++ r2.2)

/-- Claim C6: for a collection with at least one granule that is
absent from the store and whose insert fails, the update pass marks the
collection and every granule and polypoint it owns as insert-failed, and the
only insert attempted for that collection is the failed collection insert
itself (no granule or polypoint of it is individually inserted). -/
theorem C6_collection_insert_cascade (o : DBOracle) (c : ECHOcollection)
    (hne : c.granContainer ≠ [])
    (hq : o.collInDB c.collID = false)
    (hins : o.collInsertOk c.collID = false) :
    (updateColl o c).1.dbInsertFailed = true ∧
    (∀ g ∈ (updateColl o c).1.granContainer, g.dbInsertFailed = true ∧
        ∀ pp ∈ g.polyPoints, pp.dbInsertFailed = true) ∧
    (updateColl o c).2 = [.collInsertEv c.collID false] := by
  have hlen : 0 < c.granContainer.length := List.length_pos.mpr hne
  have hupd : updateColl o c =
      ({ c with dbInsertFailed := true, granContainer := c.granContainer.map taintGranule },
       [.collInsertEv c.collID false]) := by
    unfold updateColl
    rw [if_pos hlen, hq, hins]
    rfl
  rw [hupd]
  refine ⟨rfl, ?_, rfl⟩
  intro g hg
  rw [List.mem_map] at hg
  obtain ⟨g0, _, rfl⟩ := hg
  refine ⟨rfl, ?_⟩
  intro pp hpp
  have hpp2 : pp ∈ g0.polyPoints.map taintPolyPoint := hpp
  rw [List.mem_map] at hpp2
  obtain ⟨pp0, _, rfl⟩ := hpp2
  rfl

/-- Collection with one successfully downloaded granule owning one polypoint,
for the cascade witness. -/
def c6coll : ECHOcollection :=
  { collID := "C1", shortName := "SN", archCenter := "AC", collDesc := "D",
    begDateTime := "b", endDateTime := "e", doi := "doi",
    granContainer :=
      [{ egid := "G1", granuleUR := "UR1", granuleSizeMB := 10,
         begDateTime := "b", endDateTime := "e", HasPolyPoints := true,
         polyPoints := [{ latitude := 1, longitude := 2, dbInsertFailed := false }],
         w_bound := -180, s_bound := -90, e_bound := 180, n_bound := 90,
         accessURLs := [("http://x/f.h5", "NoMimeType")], localFileName := "/d/f.h5",
         numDloadTrys := 1, downloadStatus := 1, dbInsertFailed := false }],
    haveFailedDwnlds := false, dbInsertFailed := false }

/-- Oracle whose store is empty and whose collection insert always fails. -/
def c6oracle : DBOracle :=
  { collInDB := fun _ => false, collInsertOk := fun _ => false,
    granInsertOk := fun _ => true, ppInsertOk := fun _ _ _ => true }

/-- Witness for C6: the cascade claim holds on a concrete collection. -/
theorem C6_collection_insert_cascade_witness :
    (c6coll.granContainer ≠ [] ∧ c6oracle.collInDB c6coll.collID = false ∧
      c6oracle.collInsertOk c6coll.collID = false) ∧
    ((updateColl c6oracle c6coll).1.dbInsertFailed = true ∧
     (∀ g ∈ (updateColl c6oracle c6coll).1.granContainer, g.dbInsertFailed = true ∧
         ∀ pp ∈ g.polyPoints, pp.dbInsertFailed = true) ∧
     (updateColl c6oracle c6coll).2 = [.collInsertEv c6coll.collID false]) :=
  ⟨⟨List.cons_ne_nil _ _, rfl, rfl⟩,
    C6_collection_insert_cascade c6oracle c6coll (List.cons_ne_nil _ _) rfl rfl⟩

/-! ### Post-download cleanup (`ECHOdownloader.cleanup`, lines 1564-1582)

The filesystem is a list of existing path names; `os.access(fn, F_OK)` is
membership and `os.remove` succeeds exactly when the `removeOk` oracle says
so (a failure is logged and the file stays). -/

/-- Body of the cleanup loop for one granule. -/
def cleanupStep (removeOk : String → Bool) (fs : List String) (g : ECHOgranule) :
    List String :=
  if g.downloadStatus = -1 ∧ g.localFileName ∈ fs then
    if removeOk g.localFileName then fs.filter (fun f => f != g.localFileName) else fs
  else fs

/-- `ECHOdownloader.cleanup`: the nested collection/granule loops. -/
def cleanup (removeOk : String → Bool) (colls : List ECHOcollection)
    (fs : List String) : List String :=
  ((colls.map (fun c => c.granContainer)).join).foldl (cleanupStep removeOk) fs

theorem cleanupStep_subset (removeOk : String → Bool) (fs : List String)
    (g : ECHOgranule) (f : String) (hf : f ∈ cleanupStep removeOk fs g) : f ∈ fs := by
  unfold cleanupStep at hf
  split_ifs at hf
  · exact (List.mem_filter.mp hf).1
  · exact hf
  · exact hf

theorem cleanup_foldl_subset (removeOk : String → Bool) (gs : List ECHOgranule) :
    ∀ fs f, f ∈ gs.foldl (cleanupStep removeOk) fs → f ∈ fs := by
  induction gs with
  | nil => intro fs f hf; exact hf
  | cons g gs ih =>
    intro fs f hf
    exact cleanupStep_subset removeOk fs g f (ih (cleanupStep removeOk fs g) f hf)

theorem cleanupStep_removes (removeOk : String → Bool) (fs : List String)
    (g : ECHOgranule) (hstat : g.downloadStatus = -1)
    (hok : removeOk g.localFileName = true) :
    g.localFileName ∉ cleanupStep removeOk fs g := by
  unfold cleanupStep
  by_cases hmem : g.localFileName ∈ fs
  · rw [if_pos ⟨hstat, hmem⟩, if_pos hok]
    intro hf
    have := (List.mem_filter.mp hf).2
    simp at this
  · rw [if_neg (fun hand => hmem hand.2)]
    exact hmem

theorem cleanup_foldl_removed (removeOk : String → Bool) (gs : List ECHOgranule) :
    ∀ fs g, g ∈ gs → g.downloadStatus = -1 → removeOk g.localFileName = true →
      g.localFileName ∉ gs.foldl (cleanupStep removeOk) fs := by
  induction gs with
  | nil => intro fs g hg; cases hg
  | cons g0 gs ih =>
    intro fs g hg hstat hok
    rcases List.mem_cons.mp hg with h | h
    · subst h
      intro hmem
      exact cleanupStep_removes removeOk fs g hstat hok
        (cleanup_foldl_subset removeOk gs _ _ hmem)
    · exact ih (cleanupStep removeOk fs g0) g h hstat hok

theorem cleanupStep_keeps (removeOk : String → Bool) (fs : List String)
    (g : ECHOgranule) (f : String)
    (hno : ¬(g.downloadStatus = -1 ∧ g.localFileName = f)) (hf : f ∈ fs) :
    f ∈ cleanupStep removeOk fs g := by
  unfold cleanupStep
  split_ifs with h1 h2
  · have hne : f ≠ g.localFileName := fun heq => hno ⟨h1.1, heq.symm⟩
    exact List.mem_filter.mpr ⟨hf, by simp [hne]⟩
  · exact hf
  · exact hf

theorem cleanup_foldl_keeps (removeOk : String → Bool) (gs : List ECHOgranule) :
    ∀ fs f, f ∈ fs → (∀ g ∈ gs, ¬(g.downloadStatus = -1 ∧ g.localFileName = f)) →
      f ∈ gs.foldl (cleanupStep removeOk) fs := by
  induction gs with
  | nil => intro fs f hf _; exact hf
  | cons g0 gs ih =>
    intro fs f hf hno
    refine ih (cleanupStep removeOk fs g0) f ?_ ?_
    · exact cleanupStep_keeps removeOk fs g0 f (hno g0 (List.mem_cons_self g0 gs)) hf
    · intro g hg
      exact hno g (List.mem_cons_of_mem g0 hg)

/-- Claim C9: the sweep deletes the local file of every granule with
`downloadStatus == -1` whose file exists and whose deletion succeeds, and
leaves untouched the local file of every `downloadStatus == 1` granule (as
long as no failed granule shares that file name). -/
theorem C9_sweep_failed (removeOk : String → Bool) (colls : List ECHOcollection)
    (fs : List String) :
    (∀ g ∈ (colls.map (fun c => c.granContainer)).join,
        g.downloadStatus = -1 → removeOk g.localFileName = true →
        g.localFileName ∉ cleanup removeOk colls fs) ∧
    (∀ g ∈ (colls.map (fun c => c.granContainer)).join,
        g.downloadStatus = 1 → g.localFileName ∈ fs →
        (∀ g2 ∈ (colls.map (fun c => c.granContainer)).join,
            g2.downloadStatus = -1 → g2.localFileName ≠ g.localFileName) →
        g.localFileName ∈ cleanup removeOk colls fs) := by
  constructor
  · intro g hg hstat hok
    exact cleanup_foldl_removed removeOk _ fs g hg hstat hok
  · intro g hg _ hmem hno
    refine cleanup_foldl_keeps removeOk _ fs g.localFileName hmem ?_
    intro g2 hg2 hand
    exact hno g2 hg2 hand.1 hand.2

/-- Collections for the cleanup witness: one failed download and one success. -/
def c9colls : List ECHOcollection :=
  [{ collID := "C1", shortName := "SN", archCenter := "AC", collDesc := "D",
     begDateTime := "b", endDateTime := "e", doi := "doi",
     granContainer :=
       [{ egid := "G1", granuleUR := "UR1", granuleSizeMB := 10,
          begDateTime := "b", endDateTime := "e", HasPolyPoints := false,
          polyPoints := [], w_bound := -180, s_bound := -90, e_bound := 180,
          n_bound := 90, accessURLs := [], localFileName := "/d/bad.h5",
          numDloadTrys := 1, downloadStatus := -1, dbInsertFailed := false },
        { egid := "G2", granuleUR := "UR2", granuleSizeMB := 10,
          begDateTime := "b", endDateTime := "e", HasPolyPoints := false,
          polyPoints := [], w_bound := -180, s_bound := -90, e_bound := 180,
          n_bound := 90, accessURLs := [], localFileName := "/d/good.h5",
          numDloadTrys := 1, downloadStatus := 1, dbInsertFailed := false }],
     haveFailedDwnlds := true, dbInsertFailed := false }]

/-- Witness for C9: the failed download's file is swept and the successful one
survives, on a concrete filesystem. -/
theorem C9_sweep_failed_witness :
    ("/d/bad.h5" : String) ∉
        cleanup (fun _ => true) c9colls ["/d/bad.h5", "/d/good.h5"] ∧
    ("/d/good.h5" : String) ∈
        cleanup (fun _ => true) c9colls ["/d/bad.h5", "/d/good.h5"] := by
  constructor
  · exact (C9_sweep_failed (fun _ => true) c9colls ["/d/bad.h5", "/d/good.h5"]).1
      { egid := "G1", granuleUR := "UR1", granuleSizeMB := 10,
        begDateTime := "b", endDateTime := "e", HasPolyPoints := false,
        polyPoints := [], w_bound := -180, s_bound := -90, e_bound := 180,
        n_bound := 90, accessURLs := [], localFileName := "/d/bad.h5",
        numDloadTrys := 1, downloadStatus := -1, dbInsertFailed := false }
      (by decide) (by decide) (by decide)
  · exact (C9_sweep_failed (fun _ => true) c9colls ["/d/bad.h5", "/d/good.h5"]).2
      { egid := "G2", granuleUR := "UR2", granuleSizeMB := 10,
        begDateTime := "b", endDateTime := "e", HasPolyPoints := false,
        polyPoints := [], w_bound := -180, s_bound := -90, e_bound := 180,
        n_bound := 90, accessURLs := [], localFileName := "/d/good.h5",
        numDloadTrys := 1, downloadStatus := 1, dbInsertFailed := false }
      (by decide) (by decide) (by decide) (by decide)

/-! ### Catalog querying (`ECHOrequest.getReqData` lines 419-513,
`ECHOclient.makeGranuleQuery` lines 881-911, `ECHOcollection.getGranules`
lines 951-1051)

A dataset query response is the list of child elements of the returned
`<results>` root (an XML syntax error yields an empty root, hence zero
children).  A granule record's spatial section mirrors the parse tree walked
by `getGranules`: no `Geometry` element (orbit data), a `BoundingRectangle`,
a `GPolygon/Boundary` point list, or a `Geometry` with neither — on which the
source raises `SystemExit` (missing `GPolygon` raises `AttributeError`), both
modelled as the aborting case `missingBoundary`. -/

inductive GranSpatial where
  | orbit
  | rect (w s e n : Rat)
  | poly (pts : List (Rat × Rat))
  | missingBoundary
deriving Repr, DecidableEq

structure GranRecord where
  egid : String
  spatial : GranSpatial
  granuleUR : String
  sizeMB : Rat
  begDateTime : String
  endDateTime : String
  accessURLs : List (String × String)
deriving Repr, DecidableEq

/-- Fields already extracted from the single `<result>` of a dataset query
(the per-field absent-value defaults of lines 443-495 are upstream of the
claims verified here). -/
structure CollResult where
  collID : String
  shortName : String
  archCenter : String
  collDesc : String
  begDateTime : String
  endDateTime : String
  doi : String
deriving Repr, DecidableEq

/-- One dataset query: the collection results, the reported granule hit
count (`echo-hits` header), and the granule records of the response page. -/
structure DatasetResponse where
  collResults : List CollResult
  granHits : Nat
  granRecords : List GranRecord
deriving Repr, DecidableEq

/-- Granule object built by `ECHOcollection.getGranules` for a record whose
geometry parses (whole-globe default bounds unless a bounding rectangle is
given; try count starts at 1, local file name empty). -/
def granuleOfRecord (r : GranRecord) : ECHOgranule :=
  match r.spatial with
  | .orbit =>
    mkECHOgranule r.egid r.granuleUR r.sizeMB r.begDateTime r.endDateTime
      false [] (-180) (-90) 180 90 r.accessURLs "" 1
  | .rect w s e n =>
    mkECHOgranule r.egid r.granuleUR r.sizeMB r.begDateTime r.endDateTime
      false [] w s e n r.accessURLs "" 1
  | .poly pts =>
    mkECHOgranule r.egid r.granuleUR r.sizeMB r.begDateTime r.endDateTime
      true pts (-180) (-90) 180 90 r.accessURLs "" 1
  | .missingBoundary =>
    mkECHOgranule r.egid r.granuleUR r.sizeMB r.begDateTime r.endDateTime
      false [] (-180) (-90) 180 90 r.accessURLs "" 1

/-- `ECHOcollection.getGranules`: `none` models the run abort (`SystemExit`
or uncaught `AttributeError`) on a record with spatial geometry but neither
bounding rectangle nor polygon boundary. -/
def getGranules : List GranRecord → Option (List ECHOgranule)
  | [] => some []
  | r :: rs =>
    if r.spatial = .missingBoundary then none
    else (getGranules rs).map (fun gs => granuleOfRecord r :: gs)

/-- `ECHOclient.makeGranuleQuery` (lines 892-911): a reported hit count above
the requested cap discards the page and returns zero granule records. -/
def makeGranuleQuery (hits maxFiles : Nat) (records : List GranRecord) :
    List GranRecord :=
  if hits > maxFiles then [] else records

/-- Collection object appended by `getReqData` for a unique dataset result. -/
def collectionOfResult (r : CollResult) (grans : List ECHOgranule) : ECHOcollection :=
  { collID := r.collID, shortName := r.shortName, archCenter := r.archCenter,
    collDesc := r.collDesc, begDateTime := r.begDateTime, endDateTime := r.endDateTime,
    doi := r.doi, granContainer := grans, haveFailedDwnlds := false,
    dbInsertFailed := false }

/-- `ECHOrequest.getReqData` over the dataset queries: a response with zero
or more than one collection is skipped (with a warning) and processing
continues; a unique response is turned into a collection whose granules come
from the granule query.  `none` models the abort inside `getGranules`. -/
def getReqData (maxFiles : Nat) : List DatasetResponse → Option (List ECHOcollection)
  | [] => some []
  | d :: ds =>
    match d.collResults with
    | [r] =>
      match getGranules (makeGranuleQuery d.granHits maxFiles d.granRecords) with
      | none => none
      | some gs => (getReqData maxFiles ds).map (fun rest => collectionOfResult r gs :: rest)
    | _ => getReqData maxFiles ds

theorem getGranules_of_wellformed (rs : List GranRecord)
    (h : ∀ r ∈ rs, r.spatial ≠ .missingBoundary) :
    getGranules rs = some (rs.map granuleOfRecord) := by
  induction rs with
  | nil => rfl
  | cons r rs ih =>
    have hr := h r (List.mem_cons_self r rs)
    have hrest := ih (fun r2 hr2 => h r2 (List.mem_cons_of_mem r hr2))
    simp [getGranules, hr, hrest]

/-- Claim C8 (as amended): catalog-error recovery: when every granule record in
every response parses (no missing-boundary geometry), request loading never
aborts: each dataset with exactly one collection result contributes exactly
one collection (with zero granules whenever the reported hit count exceeds
the cap), each dataset with zero or several results is skipped, and the rest
of the datasets are still processed; separately, a hit count above the cap
always yields zero granule records. -/
theorem C8_catalog_recovery (maxFiles : Nat) (ds : List DatasetResponse)
    (h : ∀ d ∈ ds, ∀ r ∈ d.granRecords, r.spatial ≠ GranSpatial.missingBoundary) :
    getReqData maxFiles ds = some (ds.filterMap (fun d =>
      match d.collResults with
      | [r] => some (collectionOfResult r
          ((makeGranuleQuery d.granHits maxFiles d.granRecords).map granuleOfRecord))
      | _ => none)) ∧
    (∀ (hits mf : Nat) (records : List GranRecord), hits > mf →
      makeGranuleQuery hits mf records = []) := by
  constructor
  · induction ds with
    | nil => rfl
    | cons d ds ih =>
      have hd := h d (List.mem_cons_self d ds)
      have hrest := ih (fun d2 hd2 => h d2 (List.mem_cons_of_mem d hd2))
      have hq : ∀ r ∈ makeGranuleQuery d.granHits maxFiles d.granRecords,
          r.spatial ≠ GranSpatial.missingBoundary := by
        intro r hr
        unfold makeGranuleQuery at hr
        split_ifs at hr
        · cases hr
        · exact hd r hr
      rcases hcr : d.collResults with _ | ⟨r, rest⟩
      · simp [getReqData, List.filterMap_cons, hcr, hrest]
      · rcases rest with _ | ⟨r2, rest2⟩
        · simp [getReqData, List.filterMap_cons, hcr,
            getGranules_of_wellformed _ hq, hrest]
        · simp [getReqData, List.filterMap_cons, hcr, hrest]
  · intro hits mf records hgt
    unfold makeGranuleQuery
    rw [if_pos hgt]

/-- Dataset responses for the C8 witness: an ambiguous dataset (two
collection results), a good one, and one whose hit count exceeds the cap. -/
def c8resZero : DatasetResponse := { collResults := [], granHits := 0, granRecords := [] }

def c8collResult (cid sn : String) : CollResult :=
  { collID := cid, shortName := sn, archCenter := "AC", collDesc := "D",
    begDateTime := "b", endDateTime := "e", doi := "doi" }

def c8resGood : DatasetResponse :=
  { collResults := [c8collResult "C1" "SN"],
    granHits := 1,
    granRecords :=
      [{ egid := "G1", spatial := .rect (-10) (-10) 10 10, granuleUR := "UR1",
         sizeMB := 10, begDateTime := "b", endDateTime := "e",
         accessURLs := [("http://x/f.h5", "NoMimeType")] }] }

def c8resOverCap : DatasetResponse :=
  { collResults := [c8collResult "C2" "SN2"],
    granHits := 2000,
    granRecords :=
      [{ egid := "G2", spatial := .orbit, granuleUR := "UR2", sizeMB := 10,
         begDateTime := "b", endDateTime := "e", accessURLs := [] }] }

/-- Witness for C8: the zero-result dataset is skipped, the good dataset yields
its collection, the over-cap dataset yields a collection with zero granules,
and the run does not abort. -/
theorem C8_catalog_recovery_witness :
    (∀ d ∈ [c8resZero, c8resGood, c8resOverCap], ∀ r ∈ d.granRecords,
        r.spatial ≠ GranSpatial.missingBoundary) ∧
    getReqData 1000 [c8resZero, c8resGood, c8resOverCap] =
      some ([c8resZero, c8resGood, c8resOverCap].filterMap (fun d =>
        match d.collResults with
        | [r] => some (collectionOfResult r
            ((makeGranuleQuery d.granHits 1000 d.granRecords).map granuleOfRecord))
        | _ => none)) :=
  ⟨by decide,
    (C8_catalog_recovery 1000 [c8resZero, c8resGood, c8resOverCap] (by decide)).1⟩

/-- Response whose single granule record has spatial geometry but neither a
bounding rectangle nor polygon boundary points. -/
def c8resMalformed : DatasetResponse :=
  { collResults := [c8collResult "C3" "SN3"],
    granHits := 1,
    granRecords :=
      [{ egid := "G3", spatial := .missingBoundary, granuleUR := "UR3",
         sizeMB := 10, begDateTime := "b", endDateTime := "e",
         accessURLs := [] }] }

/-- Counterexample for C8: a malformed granule record (geometry present, but no
bounding rectangle and no polygon boundary) makes `getGranules` raise
`SystemExit`, aborting the whole run instead of skipping the dataset. -/
theorem C8_catalog_recovery_counterexample :
    getReqData 1000 [c8resMalformed] = none := by decide

/-! ### Recurring-criteria validation (`ECHOrequest.loadDataSetQueries`, lines 283-393)

The Python locals `mon_start`, `day_start`, ... are bound only when the loop
meets a `<start>`/`<end>`/`<year>` element, and they survive from one dataset
to the next; `RecEnv` tracks their binding state (`none` = never assigned, so
reading it raises `NameError`).  `int(...)` is `pyInt?`, whose failure
(`ValueError`, e.g. on the empty string an absent attribute defaults to) is a
`fault`.  `applyTCrit` is the body of the `for tcrit in criteria` loop for a
recurring search; `processRecurring` is the rest of the recurring branch:
the `int(mon_start) > int(mon_end)` comparison at line 326, the flag check at
line 330, and the normalization of lines 350-372. -/

/-- Digit value of a character, used by `pyInt?`. -/
def digitVal (c : Char) : Option Nat :=
  let n := c.toNat
  if 48 ≤ n ∧ n ≤ 57 then some (n - 48) else none

def digitsToNatAux : Nat → List Char → Option Nat
  | acc, [] => some acc
  | acc, c :: cs =>
    match digitVal c with
    | none => none
    | some d => digitsToNatAux (acc * 10 + d) cs

/-- Model of the Python `int(str)` builtin: an optional minus sign followed
by at least one digit; `none` is the `ValueError` raised otherwise. -/
def pyInt? (s : String) : Option Int :=
  match s.data with
  | [] => none
  | '-' :: cs =>
    match cs with
    | [] => none
    | _ => (digitsToNatAux 0 cs).map (fun n => -(n : Int))
  | cs => (digitsToNatAux 0 cs).map (fun n => (n : Int))

structure RecEnv where
  yr_start : Option String
  yr_end : Option String
  mon_start : Option String
  day_start : Option String
  tim_start : Option String
  mon_end : Option String
  day_end : Option String
  tim_end : Option String
deriving Repr, DecidableEq

def emptyRecEnv : RecEnv :=
  { yr_start := none, yr_end := none, mon_start := none, day_start := none,
    tim_start := none, mon_end := none, day_end := none, tim_end := none }

/-- One child element of a recurring `<temporal>` criteria (attribute values;
an absent attribute is the empty-string default of `tcrit.get(..., "")`). -/
inductive TCrit where
  | yearCrit (yrStart yrEnd : String)
  | startCrit (monStart dayStart timStart : String)
  | endCrit (monEnd dayEnd timEnd : String)
deriving Repr, DecidableEq

inductive LoadResult where
  | verror (msg : String)
  | fault
  | ok (sdatetime edatetime : String) (tsd ted : Nat)
deriving Repr, DecidableEq

/-- Loop body for one recurring criteria element (lines 287-324): always
rebinds the element's variables, validates only when all attributes are
nonempty, and sets the corresponding flag. -/
def applyTCrit (st : RecEnv × Bool × Bool × Bool) (tc : TCrit) :
    Except LoadResult (RecEnv × Bool × Bool × Bool) :=
  match tc with
  | .yearCrit ys ye =>
    let env := { st.1 with yr_start := some ys, yr_end := some ye }
    if ys.length ≠ 0 ∧ ye.length ≠ 0 then
      match pyInt? ys, pyInt? ye with
      | some a, some b =>
        if a > b then
          .error (.verror "Start year past end year in temporal recurring search criteria")
        else .ok (env, true, st.2.2.1, st.2.2.2)
      | _, _ => .error .fault
    else .ok (env, st.2.1, st.2.2.1, st.2.2.2)
  | .startCrit ms ds ts =>
    let env := { st.1 with mon_start := some ms, day_start := some ds, tim_start := some ts }
    if ms.length ≠ 0 ∧ ds.length ≠ 0 ∧ ts.length ≠ 0 then
      match pyInt? ms with
      | none => .error .fault
      | some m =>
        if m < 1 ∨ m > 12 then
          .error (.verror "Invalid start month in temporal recurring search criteria")
        else
          match pyInt? ds with
          | none => .error .fault
          | some d =>
            if d < 1 ∨ d > 31 then
              .error (.verror "Invalid start day in temporal recurring search criteria")
            else .ok (env, st.2.1, true, st.2.2.2)
    else .ok (env, st.2.1, st.2.2.1, st.2.2.2)
  | .endCrit me de te =>
    let env := { st.1 with mon_end := some me, day_end := some de, tim_end := some te }
    if me.length ≠ 0 ∧ de.length ≠ 0 ∧ te.length ≠ 0 then
      match pyInt? me with
      | none => .error .fault
      | some m =>
        if m < 1 ∨ m > 12 then
          .error (.verror "Invalid end month in temporal recurring search criteria")
        else
          match pyInt? de with
          | none => .error .fault
          | some d =>
            if d < 1 ∨ d > 31 then
              .error (.verror "Invalid end day in temporal recurring search criteria")
            else .ok (env, st.2.1, st.2.2.1, true)
    else .ok (env, st.2.1, st.2.2.1, st.2.2.2)

def foldTCrits (st : RecEnv × Bool × Bool × Bool) :
    List TCrit → Except LoadResult (RecEnv × Bool × Bool × Bool)
  | [] => .ok st
  | tc :: rest =>
    match applyTCrit st tc with
    | .error r => .error r
    | .ok st2 => foldTCrits st2 rest

/-- Recurring branch of `loadDataSetQueries` for one dataset, starting from
the environment left by any earlier dataset: criteria loop, then the
`int(mon_start) > int(mon_end)` comparison of line 326 (a `NameError` fault
when either month variable was never assigned, a `ValueError` fault when a
bound value does not parse), then the flag check of line 330, then the
normalization and query-string construction of lines 350-372. -/
def processRecurring (env0 : RecEnv) (tcrits : List TCrit) : LoadResult :=
  match foldTCrits (env0, false, false, false) tcrits with
  | .error r => r
  | .ok (env, yF, sF, eF) =>
    match env.mon_start, env.mon_end with
    | some ms, some me =>
      match pyInt? ms, pyInt? me with
      | some im_s, some im_e =>
        if im_s > im_e then
          .verror "Month start past month end in temporal recurring search criteria"
        else if ¬(yF ∧ sF ∧ eF) then
          .verror "Invalid or missing recurring temporal search criteria"
        else
          match env.yr_start, env.yr_end, env.day_start, env.day_end,
              env.tim_start, env.tim_end with
          | some ys, some ye, some dss, some des, some tss, some tes =>
            match pyInt? ys, pyInt? ye, pyInt? dss, pyInt? des with
            | some iy0, some iy1, some id_s, some id_e =>
              match recurringBounds iy0.toNat iy1.toNat im_s.toNat id_s.toNat
                  im_e.toNat id_e.toNat with
              | some (tsd, ted) =>
                .ok (ys ++ "-01-01T" ++ tss) (ye ++ "-12-31T" ++ tes) tsd ted
              | none => .fault
            | _, _, _, _ => .fault
          | _, _, _, _, _, _ => .fault
      | _, _ => .fault
    | _, _ => .fault

/-- Claim C10: a recurring criteria with a year and a start element
but no end element reaches line 326 with `mon_end` never assigned and faults
(`NameError`) instead of reporting the missing-criteria validation error; an
end element whose attributes are all absent (empty-string defaults) binds
`mon_end` to "" and faults on `int("")` (`ValueError`); for contrast, a
complete criteria produces the normalized query. -/
theorem C10_unbound_end_month :
    processRecurring emptyRecEnv
        [.yearCrit "2020" "2021", .startCrit "2" "10" "00:00:00"] = .fault ∧
    processRecurring emptyRecEnv
        [.yearCrit "2020" "2021", .startCrit "2" "10" "00:00:00",
         .endCrit "" "" ""] = .fault ∧
    processRecurring emptyRecEnv
        [.yearCrit "2020" "2021", .startCrit "2" "10" "00:00:00",
         .endCrit "3" "15" "00:00:00"] =
      .ok "2020-01-01T00:00:00" "2021-12-31T00:00:00" 41 75 := by
  refine ⟨?_, ?_, ?_⟩ <;> decide

/-! ### Concurrent transfer loop (`ECHOdownloader.multidownload`, lines 1479-1562)

One enqueued `(egid, url, filename)` tuple is a `GQItem`.  The loop state
holds the remaining queue, the in-flight transfers (curl handles removed
from `freelist`), the `granuleStatus` writes so far, and `num_processed`.
`fill` is the inner `while queue and freelist` loop; `completeAt i ok` is
one completion reported by `m.info_read()` (success sets status 1, transport
error sets -1, the handle returns to the free list); the completion order
and outcomes form a schedule, over which the claim quantifies.  `validSched`
says each scheduled completion names an actual in-flight transfer and that
the schedule drains the queue — the loop otherwise blocks in `m.select`
forever. -/

structure GQItem where
  egid : String
  url : String
  filename : String
deriving Repr, DecidableEq

/-- The hardcoded pool size (`concurrent_conns = 10`, line 1489). -/
def concurrent_conns : Nat := 10

structure MDState where
  queue : List GQItem
  inflight : List GQItem
  granuleStatus : List (String × Int)
  num_processed : Nat
deriving Repr, DecidableEq

/-- Inner `while queue and freelist` loop: move items from the queue into
idle transfer slots until the pool is full or the queue is empty. -/
def fill (s : MDState) : MDState :=
  let k := min (concurrent_conns - s.inflight.length) s.queue.length
  { s with inflight := s.inflight ++ s.queue.take k, queue := s.queue.drop k }

/-- One completion from `m.info_read()`: the in-flight transfer at position
`i` finishes; success records status 1, a transport error records -1; the
slot is recycled. An index with no in-flight transfer changes nothing. -/
def completeAt (i : Nat) (ok : Bool) (s : MDState) : MDState :=
  match s.inflight[i]? with
  | none => s
  | some c =>
    { s with inflight := s.inflight.eraseIdx i,
             granuleStatus := s.granuleStatus ++ [(c.egid, if ok then 1 else -1)],
             num_processed := s.num_processed + 1 }

/-- The outer `while num_processed < num_urls` loop, driven by a completion
schedule: each iteration refills idle slots and then consumes one scheduled
completion. -/
def mdRun (total : Nat) : List (Nat × Bool) → MDState → MDState
  | [], s => s
  | ev :: rest, s =>
    if s.num_processed < total then mdRun total rest (completeAt ev.1 ev.2 (fill s))
    else s

/-- Every state the loop passes through, including the post-fill states. -/
def mdStates (total : Nat) : List (Nat × Bool) → MDState → List MDState
  | [], s => [s]
  | ev :: rest, s =>
    if s.num_processed < total then
      s :: fill s :: mdStates total rest (completeAt ev.1 ev.2 (fill s))
    else [s]

/-- A schedule is valid when every scheduled completion names an in-flight
transfer and the schedule finishes the whole queue. -/
def validSched (total : Nat) : List (Nat × Bool) → MDState → Bool
  | [], s => decide (total ≤ s.num_processed)
  | ev :: rest, s =>
    if s.num_processed < total then
      decide (ev.1 < (fill s).inflight.length) &&
        validSched total rest (completeAt ev.1 ev.2 (fill s))
    else true

/-- `ECHOdownloader.multidownload` for a given completion schedule. -/
def multidownload (sched : List (Nat × Bool)) (q : List GQItem) : MDState :=
  mdRun q.length sched { queue := q, inflight := [], granuleStatus := [], num_processed := 0 }

/-- Loop invariant: at most `concurrent_conns` transfers in flight, one
status written per completion, the queue/in-flight/status multisets
partition the original queue, and every written status is 1 or -1. -/
def MDInv (q : List GQItem) (s : MDState) : Prop :=
  s.inflight.length ≤ concurrent_conns ∧
  s.num_processed = s.granuleStatus.length ∧
  ((s.queue ++ s.inflight).map GQItem.egid ++ s.granuleStatus.map Prod.fst).Perm
    (q.map GQItem.egid) ∧
  (∀ p ∈ s.granuleStatus, p.2 = 1 ∨ p.2 = -1)

theorem fill_inflight_le (s : MDState) (h : s.inflight.length ≤ concurrent_conns) :
    (fill s).inflight.length ≤ concurrent_conns := by
  simp only [fill, List.length_append, List.length_take]
  omega

theorem completeAt_inflight_le (i : Nat) (ok : Bool) (s : MDState) :
    (completeAt i ok s).inflight.length ≤ s.inflight.length := by
  unfold completeAt
  rcases hc : s.inflight[i]? with _ | c
  · exact Nat.le_refl _
  · simp only []
    have : (s.inflight.eraseIdx i).length ≤ s.inflight.length :=
      List.length_eraseIdx_le s.inflight i
    exact this

theorem fill_inv (q : List GQItem) (s : MDState) (h : MDInv q s) : MDInv q (fill s) := by
  obtain ⟨h1, h2, h3, h4⟩ := h
  refine ⟨fill_inflight_le s h1, h2, ?_, h4⟩
  rw [List.perm_iff_count]
  intro x
  have hx := h3.count_eq x
  simp only [fill, List.map_append, List.count_append] at hx ⊢
  have hsplit : List.count x (s.queue.map GQItem.egid) =
      List.count x ((s.queue.take (min (concurrent_conns - s.inflight.length)
        s.queue.length)).map GQItem.egid) +
      List.count x ((s.queue.drop (min (concurrent_conns - s.inflight.length)
        s.queue.length)).map GQItem.egid) := by
    rw [← List.count_append, ← List.map_append, List.take_append_drop]
  omega

theorem getElem?_perm_cons_eraseIdx (l : List α) :
    ∀ (i : Nat) (c : α), l[i]? = some c → l.Perm (c :: l.eraseIdx i) := by
  induction l with
  | nil => intro i c hc; simp at hc
  | cons a t ih =>
    intro i c hc
    cases i with
    | zero =>
      rw [List.getElem?_cons_zero] at hc
      cases hc
      exact List.Perm.refl _
    | succ i =>
      rw [List.getElem?_cons_succ] at hc
      have h1 : (a :: t).Perm (a :: (c :: t.eraseIdx i)) := List.Perm.cons a (ih i c hc)
      have h2 : (a :: (c :: t.eraseIdx i)).Perm (c :: a :: t.eraseIdx i) :=
        List.Perm.swap c a (t.eraseIdx i)
      exact h1.trans h2

theorem completeAt_inv (q : List GQItem) (i : Nat) (ok : Bool) (s : MDState)
    (h : MDInv q s) (hi : i < s.inflight.length) : MDInv q (completeAt i ok s) := by
  obtain ⟨h1, h2, h3, h4⟩ := h
  have hc : s.inflight[i]? = some s.inflight[i] := List.getElem?_eq_getElem hi
  unfold completeAt
  rw [hc]
  refine ⟨?_, ?_, ?_, ?_⟩
  · exact Nat.le_trans (List.length_eraseIdx_le s.inflight i) h1
  · simp [h2]
  · have hperm := (getElem?_perm_cons_eraseIdx s.inflight i s.inflight[i] hc).map GQItem.egid
    rw [List.perm_iff_count]
    intro x
    have hx := h3.count_eq x
    have hIc := hperm.count_eq x
    simp only [List.map_append, List.count_append] at hx ⊢
    simp only [List.map_cons, List.map_nil, List.count_cons, List.count_nil] at hIc ⊢
    omega
  · intro p hp
    rcases List.mem_append.mp hp with hm | hm
    · exact h4 p hm
    · rcases List.mem_cons.mp hm with hm2 | hm2
      · subst hm2
        by_cases hok : ok <;> simp [hok]
      · cases hm2

theorem mdRun_spec (q : List GQItem) :
    ∀ (sched : List (Nat × Bool)) (s : MDState),
      MDInv q s → validSched q.length sched s = true →
      MDInv q (mdRun q.length sched s) ∧
        q.length ≤ (mdRun q.length sched s).num_processed := by
  intro sched
  induction sched with
  | nil =>
    intro s hinv hv
    simp only [validSched, decide_eq_true_eq] at hv
    exact ⟨hinv, hv⟩
  | cons ev rest ih =>
    intro s hinv hv
    by_cases hlt : s.num_processed < q.length
    · simp only [validSched, if_pos hlt, Bool.and_eq_true, decide_eq_true_eq] at hv
      simp only [mdRun, if_pos hlt]
      exact ih (completeAt ev.1 ev.2 (fill s))
        (completeAt_inv q ev.1 ev.2 (fill s) (fill_inv q s hinv) hv.1) hv.2
    · simp only [mdRun, if_neg hlt]
      exact ⟨hinv, Nat.le_of_not_lt hlt⟩

theorem mdStates_inflight_le (total : Nat) :
    ∀ (sched : List (Nat × Bool)) (s : MDState),
      s.inflight.length ≤ concurrent_conns →
      ∀ s2 ∈ mdStates total sched s, s2.inflight.length ≤ concurrent_conns := by
  intro sched
  induction sched with
  | nil =>
    intro s h s2 hs2
    simp only [mdStates, List.mem_singleton] at hs2
    subst hs2
    exact h
  | cons ev rest ih =>
    intro s h s2 hs2
    by_cases hlt : s.num_processed < total
    · simp only [mdStates, if_pos hlt] at hs2
      rcases List.mem_cons.mp hs2 with h1 | h1
      · subst h1; exact h
      · rcases List.mem_cons.mp h1 with h2 | h2
        · subst h2; exact fill_inflight_le s h
        · refine ih (completeAt ev.1 ev.2 (fill s)) ?_ s2 h2
          exact Nat.le_trans (completeAt_inflight_le ev.1 ev.2 (fill s))
            (fill_inflight_le s h)
    · simp only [mdStates, if_neg hlt, List.mem_singleton] at hs2
      subst hs2
      exact h

/-- Claim C5: for any queue with distinct granule ids and any
valid completion schedule, the loop never has more than `concurrent_conns`
(= 10) transfers in flight at any instant, terminates with as many
completions as enqueued items, writes exactly one terminal status per
enqueued item, and every written status is 1 (success) or -1 (transport
error), regardless of the order in which transfers complete. -/
theorem C5_multidownload_bounded (q : List GQItem) (sched : List (Nat × Bool))
    (hnd : (q.map GQItem.egid).Nodup)
    (hv : validSched q.length sched
      { queue := q, inflight := [], granuleStatus := [], num_processed := 0 } = true) :
    (∀ s ∈ mdStates q.length sched
        { queue := q, inflight := [], granuleStatus := [], num_processed := 0 },
      s.inflight.length ≤ concurrent_conns) ∧
    (multidownload sched q).num_processed = q.length ∧
    (∀ it ∈ q,
      List.count it.egid ((multidownload sched q).granuleStatus.map Prod.fst) = 1) ∧
    (∀ p ∈ (multidownload sched q).granuleStatus, p.2 = 1 ∨ p.2 = -1) := by
  have hinv0 :
      MDInv q { queue := q, inflight := [], granuleStatus := [], num_processed := 0 } := by
    refine ⟨by simp [concurrent_conns], rfl, ?_, ?_⟩
    · simp
    · intro p hp; cases hp
  obtain ⟨hinvF, htot⟩ := mdRun_spec q sched _ hinv0 hv
  obtain ⟨hF1, hF2, hF3, hF4⟩ := hinvF
  have hMD : multidownload sched q =
      mdRun q.length sched { queue := q, inflight := [], granuleStatus := [], num_processed := 0 } := rfl
  set M := mdRun q.length sched
    { queue := q, inflight := [], granuleStatus := [], num_processed := 0 } with hM
  have hlen := hF3.length_eq
  simp only [List.length_append, List.length_map] at hlen
  have hproc : M.num_processed = q.length := by omega
  have hq0 : M.queue.length = 0 ∧ M.inflight.length = 0 := by omega
  have hqnil : M.queue = [] := List.length_eq_zero.mp hq0.1
  have hinil : M.inflight = [] := List.length_eq_zero.mp hq0.2
  have hkeys : (M.granuleStatus.map Prod.fst).Perm (q.map GQItem.egid) := by
    have h := hF3
    rw [hqnil, hinil] at h
    simpa using h
  rw [hMD]
  refine ⟨?_, hproc, ?_, ?_⟩
  · exact mdStates_inflight_le q.length sched _ (by simp [concurrent_conns])
  · intro it hit
    rw [hkeys.count_eq it.egid]
    exact List.count_eq_one_of_mem hnd (List.mem_map_of_mem GQItem.egid hit)
  · exact hF4

/-- Witness for C5: a two-item queue with the schedule "first slot finishes ok,
then the remaining transfer fails" satisfies all four conclusions. -/
theorem C5_multidownload_bounded_witness :
    ((([⟨"G1", "u1", "f1"⟩, ⟨"G2", "u2", "f2"⟩] : List GQItem).map GQItem.egid).Nodup ∧
      validSched 2 [(0, true), (0, false)]
        { queue := [⟨"G1", "u1", "f1"⟩, ⟨"G2", "u2", "f2"⟩], inflight := [],
          granuleStatus := [], num_processed := 0 } = true) ∧
    ((∀ s ∈ mdStates 2 [(0, true), (0, false)]
        { queue := [⟨"G1", "u1", "f1"⟩, ⟨"G2", "u2", "f2"⟩], inflight := [],
          granuleStatus := [], num_processed := 0 },
      s.inflight.length ≤ concurrent_conns) ∧
    (multidownload [(0, true), (0, false)]
      [⟨"G1", "u1", "f1"⟩, ⟨"G2", "u2", "f2"⟩]).num_processed = 2 ∧
    (∀ it ∈ ([⟨"G1", "u1", "f1"⟩, ⟨"G2", "u2", "f2"⟩] : List GQItem),
      List.count it.egid ((multidownload [(0, true), (0, false)]
        [⟨"G1", "u1", "f1"⟩, ⟨"G2", "u2", "f2"⟩]).granuleStatus.map Prod.fst) = 1) ∧
    (∀ p ∈ (multidownload [(0, true), (0, false)]
        [⟨"G1", "u1", "f1"⟩, ⟨"G2", "u2", "f2"⟩]).granuleStatus,
      p.2 = 1 ∨ p.2 = -1)) :=
  ⟨⟨by decide, by decide⟩,
    C5_multidownload_bounded [⟨"G1", "u1", "f1"⟩, ⟨"G2", "u2", "f2"⟩]
      [(0, true), (0, false)] (by decide) (by decide)⟩

end EDClient
